import Mathlib

/-! romanyx/places: search orchestration, boundary handler and upstream requester

A shallow embedding of the Go sources

* `internal/place/models.go`      (`Model`)
* `internal/search/service.go`    (`Params`, `Service.Search`)
* `internal/broker/http/http.go`  (`searchHandler.Handle`, `setParams`)
* `internal/requester/http/http.go` (`Requester.Request`, `setPlaceFields`, ...)
* `internal/storage/redis/redis.go` (`paramsToHex`, `Repository.Cache`, `Repository.Retrieve`)
* `internal/search/requester.go`, `internal/search/repository.go`,
  `internal/broker/http/searcher.go` (the tracing and logging decorators)

Collaborators behind Go interfaces (`Requester`, `Repository`, `Searcher`, the HTTP
client) are arbitrary state-passing functions over an abstract collaborator state `σ`.
Every call a function makes on a collaborator, every log line, every goroutine it
starts and every deferred `cancel()` is appended to the `trace` of the `World`, so that
"is called", "is not called" and "is dispatched" are statements about that trace.
-/

namespace Places

/-! ## Data model -/

/-- A Go slice value: `none` is the nil slice, `some l` a non-nil slice holding `l`. -/
abbrev Slice (α : Type) := Option (List α)

/-- The elements of a slice; the nil slice has none. -/
def Slice.elems {α : Type} : Slice α → List α
  | none => []
  | some l => l

/-- Go `len(s)`. -/
def Slice.len {α : Type} (s : Slice α) : Nat := s.elems.length

/-- Go `place.Model` (`internal/place/models.go`). -/
structure Model where
  Slug : String
  SubTitle : String
  Title : String
deriving DecidableEq, Repr

/-- Go `search.Params` (`internal/search/service.go`). -/
structure Params where
  Term : String
  Locale : String
  Types : Slice String
deriving DecidableEq, Repr

/-- The zero value `search.Params{}`. -/
def Params.zero : Params := ⟨"", "", none⟩

/-- The zero value `place.Model{}`. -/
def Model.zero : Model := ⟨"", "", ""⟩

/-! ## Errors

Go error values as this program builds and compares them.  The five sentinels of the
program and `redis.Nil` of the redis client are distinct values compared by identity; `fundamental` is any other error value that has no
`Cause()` method (`errors.New`, `errors.Errorf`, library errors); `withMessage` is what
`errors.Wrap` returns (it has a `Cause()` method); `urlError` is the `*url.Error` that
`http.Client.Do` returns, which embeds the transport's error in its message and has no
`Cause()` method. -/

/-- Go `error` values. -/
inductive Err where
  | DeadlineExceeded
  | Canceled
  | ErrBadRequest
  | ErrCacheNotFound
  | ErrUnavailable
  | RedisNil
  | fundamental (msg : String)
  | withMessage (cause : Err) (msg : String)
  | urlError (op : String) (url : String) (err : Err)
deriving DecidableEq, Repr

/-- Go `err.Error()`: the message of an error. -/
def Err.Error : Err → String
  | .DeadlineExceeded => "context deadline exceeded"
  | .Canceled => "context canceled"
  | .ErrBadRequest => "bad request"
  | .ErrCacheNotFound => "cache not found"
  | .ErrUnavailable => "places unavailable"
  | .RedisNil => "redis: nil"
  | .fundamental msg => msg
  | .withMessage cause msg => msg ++ ": " ++ cause.Error
  | .urlError op url err => op ++ " " ++ url ++ ": " ++ err.Error

/-- The `errors.Cause` of `github.com/pkg/errors`: follow `Cause()` while the error has one. -/
def Cause : Err → Err
  | .withMessage cause _ => Cause cause
  | e => e

/-- The `errors.Wrap` of `github.com/pkg/errors`, on a non-nil error (every call site
passes one). -/
def Wrap (err : Err) (message : String) : Err := .withMessage err message

/-- Go `errors.Errorf("unexpected status code: %d", code)`. -/
def unexpectedStatus (code : Nat) : Err :=
  .fundamental ("unexpected status code: " ++ toString code)

/-! ## Contexts, events and the world -/

/-- Go `context.Context` values, as far as the program derives them. -/
inductive Context where
  | Background
  | request (id : Nat)
  | WithCancel (parent : Context)
  | WithTimeout (parent : Context) (timeout : Nat)
deriving DecidableEq, Repr

/-- What a function does besides returning: calls on collaborators, log lines, goroutines
started, deferred cancellations, and what it does to the opencensus span it started (a
span is named by the name it was started with). -/
inductive Event where
  | Request (ctx : Context) (p : Params)
  | Retrieve (ctx : Context) (p : Params)
  | Cache (ctx : Context) (p : Params) (places : Slice Model)
  | goCache (ctx : Context) (p : Params) (places : Slice Model)
  | Search (ctx : Context) (p : Params)
  | Warn (err : Err)
  | LogError (err : Err)
  | cancel (ctx : Context)
  | Debug (msg : String)
  | StartSpan (name : String)
  | AddAttributes (span : String) (attrs : List (String × String))
  | SetStatus (span : String) (code : Nat) (message : String)
  | End (span : String)
deriving DecidableEq, Repr

/-- Collaborator state together with the trace of events so far. -/
structure World (σ : Type) where
  state : σ
  trace : List Event

/-- Append one event to the trace. -/
def World.emit {σ : Type} (w : World σ) (e : Event) : World σ :=
  { w with trace := w.trace ++ [e] }

/-- Go interface `search.Requester`. -/
structure Requester (σ : Type) where
  Request : Context → Params → σ → (Slice Model × Option Err) × σ

/-- Go interface `search.Repository`. -/
structure Repository (σ : Type) where
  Cache : Context → Params → Slice Model → σ → Option Err × σ
  Retrieve : Context → Params → σ → (Slice Model × Option Err) × σ

/-- Go `search.Service`: the embedded `Requester` and `Repository` and the timeout. -/
structure Service (σ : Type) where
  requester : Requester σ
  repository : Repository σ
  timeout : Nat

/-- Go `search.NewService`. -/
def NewService {σ : Type} (rq : Requester σ) (repo : Repository σ) (timeout : Nat) :
    Service σ :=
  { requester := rq, repository := repo, timeout := timeout }

/-- The call `s.Request(ctx, p)`: recorded in the trace and run on the collaborator state. -/
def Service.callRequest {σ : Type} (s : Service σ) (ctx : Context) (p : Params)
    (w : World σ) : (Slice Model × Option Err) × World σ :=
  let r := s.requester.Request ctx p w.state
  (r.1, { state := r.2, trace := w.trace ++ [.Request ctx p] })

/-- The call `s.Retrieve(ctx, p)`. -/
def Service.callRetrieve {σ : Type} (s : Service σ) (ctx : Context) (p : Params)
    (w : World σ) : (Slice Model × Option Err) × World σ :=
  let r := s.repository.Retrieve ctx p w.state
  (r.1, { state := r.2, trace := w.trace ++ [.Retrieve ctx p] })

/-- The call `s.Cache(ctx, p, places)`. -/
def Service.callCache {σ : Type} (s : Service σ) (ctx : Context) (p : Params)
    (places : Slice Model) (w : World σ) : Option Err × World σ :=
  let r := s.repository.Cache ctx p places w.state
  (r.1, { state := r.2, trace := w.trace ++ [.Cache ctx p places] })

/-- The fallback part of `Service.Search` (service.go lines 93-105): retrieve the cache. -/
def Service.fallback {σ : Type} (s : Service σ) (ctx : Context) (p : Params)
    (w : World σ) : (Slice Model × Option Err) × World σ :=
  let r := s.callRetrieve ctx p w
  match r.1.2 with
  | some err =>
    let w2 :=
      if Cause err ≠ .ErrCacheNotFound then
        r.2.emit (.LogError (Wrap err "unexpected error on retrieve"))
      else r.2
    ((none, some .ErrUnavailable), w2)
  | none => ((r.1.1, none), r.2)

/-- The body of `Service.Search` after `ctx, cancel := context.WithTimeout(ctx, s.timeout)`,
with `ctx` the derived context. -/
def Service.searchBody {σ : Type} (s : Service σ) (ctx : Context) (p : Params)
    (w : World σ) : (Slice Model × Option Err) × World σ :=
  let r := s.callRequest ctx p w
  match r.1.2 with
  | some err =>
    match Cause err with
    | .DeadlineExceeded => s.fallback ctx p r.2
    | .Canceled => ((r.1.1, none), r.2)
    | .ErrBadRequest => ((none, some err), r.2)
    | _ => s.fallback ctx p (r.2.emit (.Warn (Wrap err "unexpected error on request")))
  | none => ((r.1.1, none), r.2.emit (.goCache ctx p r.1.1))

/-- Go `(*Service).Search` (service.go lines 70-119).  The deferred `cancel()` of the
derived context runs on every return path. -/
def Service.Search {σ : Type} (s : Service σ) (ctx : Context) (p : Params)
    (w : World σ) : (Slice Model × Option Err) × World σ :=
  let ctx1 := Context.WithTimeout ctx s.timeout
  let r := s.searchBody ctx1 p w
  (r.1, r.2.emit (.cancel ctx1))

/-- The goroutine `Service.Search` starts on success (service.go lines 109-116). -/
def Service.cacheGoroutine {σ : Type} (s : Service σ) (ctx : Context) (p : Params)
    (places : Slice Model) (w : World σ) : World σ :=
  let r := s.callCache ctx p places w
  match r.1 with
  | some err => r.2.emit (.LogError (Wrap err "cache failed"))
  | none => r.2

/-- Running the goroutines a trace dispatched, in the order they were started: each
`go` of the cache write runs `Service.cacheGoroutine` with the context, parameters and
places it was started with. -/
def Service.runGoroutines {σ : Type} (s : Service σ) : List Event → World σ → World σ
  | [], w => w
  | .goCache ctx p places :: es, w => s.runGoroutines es (s.cacheGoroutine ctx p places w)
  | _ :: es, w => s.runGoroutines es w

/-- The events a run appended to the trace it started from. -/
def newEvents {σ : Type} (before after : World σ) : List Event :=
  after.trace.drop before.trace.length

/-- The `(p, places)` arguments of the `Repository.Cache` calls dispatched in a trace,
synchronous or in a goroutine. -/
def cacheCalls : List Event → List (Params × Slice Model)
  | [] => []
  | .Cache _ p v :: es => (p, v) :: cacheCalls es
  | .goCache _ p v :: es => (p, v) :: cacheCalls es
  | _ :: es => cacheCalls es

/-- The arguments of the `Repository.Retrieve` calls in a trace. -/
def retrieveCalls : List Event → List Params
  | [] => []
  | .Retrieve _ p :: es => p :: retrieveCalls es
  | _ :: es => retrieveCalls es

/-! ## Boundary handler (`internal/broker/http/http.go`) -/

/-- Go `url.Values` (`map[string][]string`) as an association list with distinct keys. -/
abbrev Values := List (String × List String)

/-- Go `f[key]`: the nil slice when the key is absent. -/
def Values.get (f : Values) (key : String) : Slice String := f.lookup key

/-- Go `http.ResponseWriter`, with the behaviour of net/http: the first header written
wins, `Write` writes the header 200 first when none was written, and `writeError` is the
error its `Write` returns (`none` for `httptest.ResponseRecorder`). -/
structure ResponseWriter where
  Code : Option Nat
  Body : String
  writeError : Option Err
deriving DecidableEq, Repr

/-- Go `httptest.NewRecorder()`, before anything is written. -/
def NewRecorder : ResponseWriter := { Code := none, Body := "", writeError := none }

/-- Go `w.WriteHeader(code)`. -/
def ResponseWriter.WriteHeader (w : ResponseWriter) (code : Nat) : ResponseWriter :=
  match w.Code with
  | some _ => w
  | none => { w with Code := some code }

/-- Go `w.Write(data)`. -/
def ResponseWriter.Write (w : ResponseWriter) (data : String) : ResponseWriter × Option Err :=
  let w1 := w.WriteHeader 200
  match w1.writeError with
  | some e => (w1, some e)
  | none => ({ w1 with Body := w1.Body ++ data }, none)

/-- Lower-case hexadecimal digit. -/
def hexLower (n : Nat) : Char := Nat.digitChar (n % 16)

/-- Go `encoding/json` escaping of one character of a string, as `json.Encoder` does it
(HTML escaping on): the quote and the backslash after a backslash, `\b`, `\f`, `\n`,
`\r`, `\t` for those control characters, `\u00XX` for the other characters below
U+0020 and for `<`, `>`, `&`, `\u2028` and `\u2029`, every other character as it is. -/
def jsonEscapeChar (c : Char) : String :=
  let n := c.toNat
  if n = 0x22 then "\\\""
  else if n = 0x5C then "\\\\"
  else if n = 0x08 then "\\b"
  else if n = 0x0C then "\\f"
  else if n = 0x0A then "\\n"
  else if n = 0x0D then "\\r"
  else if n = 0x09 then "\\t"
  else if n < 0x20 ∨ n = 0x3C ∨ n = 0x3E ∨ n = 0x26 then
    "\\u00" ++ String.singleton (hexLower (n / 16)) ++ String.singleton (hexLower n)
  else if n = 0x2028 ∨ n = 0x2029 then
    "\\u202" ++ String.singleton (hexLower n)
  else String.singleton c

/-- Go `encoding/json` encoding of a `string`. -/
def jsonString (s : String) : String :=
  "\"" ++ String.join (s.data.map jsonEscapeChar) ++ "\""

/-- Go `encoding/json` encoding of a `place.Model`, with its `json:"..."` tags. -/
def jsonModel (m : Model) : String :=
  "\x7b\"slug\":" ++ jsonString m.Slug ++ ",\"subtitle\":" ++ jsonString m.SubTitle
    ++ ",\"title\":" ++ jsonString m.Title ++ "\x7d"

/-- Go `encoding/json` encoding of a `[]place.Model`: the nil slice is `null`. -/
def jsonPlaces : Slice Model → String
  | none => "null"
  | some l => "[" ++ ",".intercalate (l.map jsonModel) ++ "]"

/-- Go `json.NewEncoder(w).Encode(&places)`: one `Write` of the encoding and a newline. -/
def jsonEncode (w : ResponseWriter) (places : Slice Model) : ResponseWriter × Option Err :=
  w.Write (jsonPlaces places ++ "\n")

/-- Go `http.Request`, as far as the handler reads it: the method, the context and the
outcome of `r.ParseForm()`. -/
structure HttpRequest where
  Method : String
  ctx : Context
  ParseForm : Except Err Values

/-- Go interface `Searcher` of `internal/broker/http`. -/
structure Searcher (σ : Type) where
  Search : Context → Params → World σ → (Slice Model × Option Err) × World σ

/-- A `*search.Service` used as a `Searcher`. -/
def Service.toSearcher {σ : Type} (s : Service σ) : Searcher σ := { Search := s.Search }

/-- The call `h.Search(ctx, params)`: recorded in the trace, then run. -/
def Searcher.callSearch {σ : Type} (h : Searcher σ) (ctx : Context) (p : Params)
    (w : World σ) : (Slice Model × Option Err) × World σ :=
  h.Search ctx p (w.emit (.Search ctx p))

/-- The `Searcher.Search` calls in a trace. -/
def searchCalls : List Event → List Params
  | [] => []
  | .Search _ p :: es => p :: searchCalls es
  | _ :: es => searchCalls es

/-- Go `setParams`. -/
def setParams (params : Params) (f : Values) : Params :=
  let p1 := if 0 < (f.get "term").len then
      { params with Term := (f.get "term").elems.headD "" } else params
  let p2 := if 0 < (f.get "locale").len then
      { p1 with Locale := (f.get "locale").elems.headD "" } else p1
  { p2 with Types := f.get "types[]" }

/-- Go `internalServerErrorResponse`. -/
def internalServerErrorResponse (w : ResponseWriter) : ResponseWriter × Option Err :=
  (w.WriteHeader 500, none)

/-- Go `unavailableResponse`. -/
def unavailableResponse (w : ResponseWriter) : ResponseWriter × Option Err :=
  (w.WriteHeader 503, none)

/-- Go `badRequestResponse`. -/
def badRequestResponse (w : ResponseWriter) : ResponseWriter × Option Err :=
  (w.WriteHeader 400, none)

/-- Go `methodNotAllowedResponse`. -/
def methodNotAllowedResponse (w : ResponseWriter) : ResponseWriter × Option Err :=
  (w.WriteHeader 405, none)

/-- Go `(*searchHandler).Handle` (http.go lines 48-76). -/
def searchHandler.Handle {σ : Type} (h : Searcher σ) (w : ResponseWriter) (r : HttpRequest)
    (world : World σ) : (ResponseWriter × Option Err) × World σ :=
  if r.Method ≠ "GET" then (methodNotAllowedResponse w, world)
  else
    match r.ParseForm with
    | .error err => ((w, some (Wrap err "parse form")), world)
    | .ok form =>
      let params := setParams Params.zero form
      let res := h.callSearch r.ctx params world
      match res.1.2 with
      | some err =>
        match Cause err with
        | .ErrUnavailable => (unavailableResponse w, res.2)
        | .ErrBadRequest => (badRequestResponse w, res.2)
        | _ => (internalServerErrorResponse w, res.2)
      | none =>
        let enc := jsonEncode w res.1.1
        match enc.2 with
        | some err => ((enc.1, some (Wrap err "encode json")), res.2)
        | none => ((enc.1, none), res.2)

/-- The status lookup the boundary is specified to perform on the error of `Search`. -/
def statusOf : Option Err → Nat
  | none => 200
  | some err =>
    if Cause err = .ErrUnavailable then 503
    else if Cause err = .ErrBadRequest then 400
    else 500

/-! ## Upstream requester (`internal/requester/http/http.go`) -/

namespace HTTP

/-- Go constant `endpoint`. -/
def endpoint : String := "https://places.aviasales.ru/v2/places.json"

/-- Go constant `typeCity`. -/
def typeCity : String := "city"

/-- Go `Place`: a record of the upstream list (`Typ` is the field `Type`). -/
structure Place where
  Typ : String
  Code : String
  Name : String
  CountryName : String
  CityName : String
deriving DecidableEq, Repr

/-- The zero value `Place{}`. -/
def Place.zero : Place := ⟨"", "", "", "", ""⟩

/-- Go `http.Response`, as far as `Request` reads it: the status code and the outcome of
`json.NewDecoder(resp.Body).Decode(&places)` on its body. -/
structure Response where
  StatusCode : Nat
  Decode : Except Err (Slice Place)

/-- Go `*http.Client`: `Do` on a request with the given context and URL. -/
structure Client (σ : Type) where
  Do : Context → String → σ → Except Err Response × σ

/-- UTF-8 bytes of one character. -/
def utf8Bytes (c : Char) : List Nat :=
  let n := c.toNat
  if n < 0x80 then [n]
  else if n < 0x800 then [0xC0 + n / 64, 0x80 + n % 64]
  else if n < 0x10000 then [0xE0 + n / 4096, 0x80 + n / 64 % 64, 0x80 + n % 64]
  else [0xF0 + n / 262144, 0x80 + n / 4096 % 64, 0x80 + n / 64 % 64, 0x80 + n % 64]

/-- The bytes of a Go string holding the text `s`. -/
def bytes (s : String) : List Nat := s.data.flatMap utf8Bytes

/-- Upper-case hexadecimal digit (Go `upperhex`). -/
def hexUpper (n : Nat) : Char :=
  if n % 16 < 10 then Char.ofNat (48 + n % 16) else Char.ofNat (55 + n % 16)

/-- Go `url.QueryEscape` on one byte: unreserved bytes stay, space is `+`, every other
byte is `%XX`. -/
def escapeByte (b : Nat) : List Char :=
  if (0x30 ≤ b ∧ b ≤ 0x39) ∨ (0x41 ≤ b ∧ b ≤ 0x5A) ∨ (0x61 ≤ b ∧ b ≤ 0x7A)
      ∨ b = 0x2D ∨ b = 0x5F ∨ b = 0x2E ∨ b = 0x7E then [Char.ofNat b]
  else if b = 0x20 then [Char.ofNat 0x2B]
  else [Char.ofNat 0x25, hexUpper (b / 16), hexUpper b]

/-- Go `url.QueryEscape`. -/
def QueryEscape (s : String) : String := ⟨(bytes s).flatMap escapeByte⟩

/-- Go `v.Set(key, value)`. -/
def Values.Set (v : Values) (key value : String) : Values :=
  (key, [value]) :: v.filter (fun kv => kv.1 ≠ key)

/-- Go `v.Add(key, value)`. -/
def Values.Add (v : Values) (key value : String) : Values :=
  match v.lookup key with
  | some vs => (key, vs ++ [value]) :: v.filter (fun kv => kv.1 ≠ key)
  | none => (key, [value]) :: v

/-- Insert a key into a list of keys sorted in increasing order. -/
def insertKey (k : String) : List String → List String
  | [] => [k]
  | x :: xs => if k < x then k :: x :: xs else x :: insertKey k xs

/-- Go `sort.Strings` on the keys of a map. -/
def sortKeys (ks : List String) : List String := ks.foldr insertKey []

/-- Go `v.Encode()`: keys sorted, each value as `key=value`, joined by `&`. -/
def Values.Encode (v : Values) : String :=
  "&".intercalate ((sortKeys (v.map Prod.fst)).flatMap fun k =>
    ((v.lookup k).getD []).map fun val => QueryEscape k ++ "=" ++ QueryEscape val)

/-- Go `queryToString`. -/
def queryToString (p : Params) : String :=
  let v0 : Values := []
  let v1 := Values.Set v0 "term" p.Term
  let v2 := Values.Set v1 "locale" p.Locale
  let v3 := p.Types.elems.foldl (fun v t => Values.Add v "types[]" t) v2
  Values.Encode v3

/-- Go `strings.Contains` on the characters of the two strings. -/
def containsChars : List Char → List Char → Bool
  | [], sub => sub.isEmpty
  | c :: cs, sub => sub.isPrefixOf (c :: cs) || containsChars cs sub

/-- Go `strings.Contains`. -/
def Contains (s substr : String) : Bool := containsChars s.data substr.data

/-- Go `deadlineError`. -/
def deadlineError (err : Err) : Bool := Contains err.Error "context deadline exceeded"

/-- Go `cancelError`. -/
def cancelError (err : Err) : Bool := Contains err.Error "context canceled"

/-- Go `setPlaceFields(model, place)`: the model after the assignments. -/
def setPlaceFields (model : Model) (place : Place) : Model :=
  let m1 := { model with Slug := place.Code }
  let m2 := { m1 with Title := place.Name }
  if place.Typ = typeCity then { m2 with SubTitle := place.CountryName }
  else { m2 with SubTitle := place.CityName }

/-- The loop `for i := range places { setPlaceFields(&result[i], &places[i]) }` over
`result := make([]place.Model, len(places))` (http.go lines 72-75). -/
def translate (places : Slice Place) : List Model :=
  (List.range places.len).foldl
    (fun result i =>
      result.set i (setPlaceFields (result.getD i Model.zero) (places.elems.getD i Place.zero)))
    (List.replicate places.len Model.zero)

/-- Go `(*Requester).Request` (http.go lines 37-78).  `http.NewRequest` cannot fail on
the method GET and this URL, whose query is query-escaped. -/
def Request {σ : Type} (client : Client σ) (ctx : Context) (p : Params) (st : σ) :
    (Slice Model × Option Err) × σ :=
  let url := endpoint ++ "?" ++ queryToString p
  let r := client.Do ctx url st
  match r.1 with
  | .error err =>
    if deadlineError err then ((none, some .DeadlineExceeded), r.2)
    else if cancelError err then ((none, some .Canceled), r.2)
    else ((none, some (Wrap err "do request")), r.2)
  | .ok resp =>
    if resp.StatusCode ≠ 200 then
      if resp.StatusCode = 400 then ((none, some .ErrBadRequest), r.2)
      else ((none, some (unexpectedStatus resp.StatusCode)), r.2)
    else
      match resp.Decode with
      | .error err => ((none, some (Wrap err "decode body")), r.2)
      | .ok places => ((some (translate places), none), r.2)

/-- Go `New(client)`, as a `search.Requester`. -/
def New {σ : Type} (client : Client σ) : Requester σ := { Request := Request client }

end HTTP

/-- The events before the `Retrieve` call on the fallback path: the `Request` call and,
unless the root cause is the deadline, the warning. -/
def fallbackPrefix (ctx : Context) (p : Params) (e : Err) : List Event :=
  if Cause e = .DeadlineExceeded then [.Request ctx p]
  else [.Request ctx p, .Warn (Wrap e "unexpected error on request")]

/-! ## Test doubles (`internal/search/service_test.go`) -/

/-- The `requesterFunc` of service_test.go returning a fixed result; the collaborator
state counts the calls made on collaborators. -/
def requesterFunc (r : Slice Model × Option Err) : Requester Nat :=
  { Request := fun _ _ n => (r, n + 1) }

/-- The `MockRepository` of service_test.go with fixed results for `Cache` and `Retrieve`. -/
def MockRepository (cache : Option Err) (retrieve : Slice Model × Option Err) :
    Repository Nat :=
  { Cache := fun _ _ _ n => (cache, n + 1), Retrieve := fun _ _ n => (retrieve, n + 1) }

/-- A requester returning a fixed result over any collaborator state, which it leaves as
it is. -/
def constRequester {σ : Type} (r : Slice Model × Option Err) : Requester σ :=
  { Request := fun _ _ st => (r, st) }

/-- The place of the tests. -/
def moscow : Model := { Slug := "MOW", SubTitle := "Russia", Title := "Moscow" }

/-- The context of the tests: `context.WithCancel(context.Background())`. -/
def testCtx : Context := .WithCancel .Background

/-- The world before a test run: no collaborator called, nothing traced. -/
def world0 : World Nat := { state := 0, trace := [] }

/-- The service of `getPlaces503` in search_test.go: the upstream fails and the cache is
empty. -/
def service503 : Service Nat :=
  NewService (requesterFunc (none, some (.fundamental "upstream failed")))
    (MockRepository none (none, some .ErrCacheNotFound)) 3

/-- A GET request to `/places` without query parameters, as in search_test.go. -/
def getRequest : HttpRequest := { Method := "GET", ctx := .request 0, ParseForm := .ok [] }

/-- A POST request to `/places`, as in `getPlaces405` of search_test.go. -/
def postRequest : HttpRequest := { Method := "POST", ctx := .request 0, ParseForm := .ok [] }

/-- An HTTP client test double answering every request with a fixed outcome, like the
`httptest` servers of http_test.go; the state counts the requests. -/
def clientFunc (r : Except Err HTTP.Response) : HTTP.Client Nat :=
  { Do := fun _ _ n => (r, n + 1) }

/-- The upstream record of `okResponse` in http_test.go. -/
def moscowPlace : HTTP.Place :=
  { Typ := "city", Code := "MOW", Name := "Moscow", CountryName := "Russia", CityName := "" }

/-- The error `http.Client.Do` returns when the request context's deadline passes: a
`*url.Error` around the transport's error. -/
def transportDeadline : Err := .urlError "Get" "https://places.aviasales.ru" .DeadlineExceeded

/-! ## Cache key (`internal/storage/redis/redis.go`) -/

namespace Redis

/-- Go `fmt.Sprint(p)` on a `search.Params`: the default `%v` rendering of the struct,
fields separated by a space, the slice in brackets with its elements separated by a
space, strings written as they are. -/
def Sprint (p : Params) : String :=
  "\x7b" ++ p.Term ++ " " ++ p.Locale ++ " [" ++ " ".intercalate p.Types.elems ++ "]\x7d"

/-- Go `hex.EncodeToString` on one byte: two lower-case hexadecimal digits. -/
def hexByte (b : Nat) : List Char := [hexLower (b / 16), hexLower b]

/-- Go `hex.EncodeToString`. -/
def EncodeToString (src : List Nat) : String := ⟨src.flatMap hexByte⟩

/-- Go `paramsToHex`. -/
def paramsToHex (p : Params) : String := EncodeToString (HTTP.bytes (Sprint p))

end Redis

/-! ## Context cancellation -/

/-- The context itself and the contexts it is derived from. -/
def Context.lineage : Context → List Context
  | .Background => [.Background]
  | .request id => [.request id]
  | .WithCancel parent => .WithCancel parent :: parent.lineage
  | .WithTimeout parent timeout => .WithTimeout parent timeout :: parent.lineage

/-- A context is done once its `cancel()` or that of a context it derives from has
run. -/
def ctxDone (trace : List Event) (ctx : Context) : Bool :=
  ctx.lineage.any fun c => trace.contains (.cancel c)

/-- The contexts handed to the `Cache` goroutines dispatched in a trace. -/
def goCacheContexts : List Event → List Context
  | [] => []
  | .goCache ctx _ _ :: es => ctx :: goCacheContexts es
  | _ :: es => goCacheContexts es

/-- The service of the "happy path" case of service_test.go. -/
def happyService : Service Nat :=
  NewService (requesterFunc (some [], none)) (MockRepository none (none, none)) 1

/-- The space character, the separator of `fmt.Sprint`. -/
def space : Char := Char.ofNat 32

/-- Whether a text contains a space. -/
def hasSpace (s : String) : Bool := s.data.contains space

/-! ## Redis repository (`internal/storage/redis/redis.go`) -/

namespace Redis

/-- Go `*redis.Client`, as far as the repository uses it: `Set(key, value, 0).Err()` and
`Get(key).Result()`, whose error is `redis.Nil` when the key is absent.  `β` is the type
of the stored values (the bytes `encoding/gob` produces). -/
structure Client (σ β : Type) where
  Set : String → β → σ → Option Err × σ
  Get : String → σ → Except Err β × σ

/-- Go `encoding/gob` on a `[]place.Model`: `gob.NewEncoder(&buf).Encode(places)` and
`gob.NewDecoder(reader).Decode(&places)` into a nil slice. -/
structure Gob (β : Type) where
  Encode : Slice Model → Except Err β
  Decode : β → Except Err (Slice Model)

/-- Go `(*Repository).Cache` (redis.go lines 34-45). -/
def Cache {σ β : Type} (gob : Gob β) (client : Client σ β) (_ctx : Context) (p : Params)
    (places : Slice Model) (st : σ) : Option Err × σ :=
  match gob.Encode places with
  | .error err => (some (Wrap err "encode gob"), st)
  | .ok buf =>
    let key := paramsToHex p
    let r := client.Set key buf st
    match r.1 with
    | some err => (some (Wrap err "set key"), r.2)
    | none => (none, r.2)

/-- Go `(*Repository).Retrieve` (redis.go lines 48-66). -/
def Retrieve {σ β : Type} (gob : Gob β) (client : Client σ β) (_ctx : Context) (p : Params)
    (st : σ) : (Slice Model × Option Err) × σ :=
  let key := paramsToHex p
  let r := client.Get key st
  match r.1 with
  | .error err =>
    if err = .RedisNil then ((none, some .ErrCacheNotFound), r.2)
    else ((none, some (Wrap err "get key")), r.2)
  | .ok data =>
    match gob.Decode data with
    | .error err => ((none, some (Wrap err "decode gob")), r.2)
    | .ok places => ((places, none), r.2)

/-- Go `NewRepository(client)`, as a `search.Repository`. -/
def NewRepository {σ β : Type} (gob : Gob β) (client : Client σ β) : Repository σ :=
  { Cache := Cache gob client, Retrieve := Retrieve gob client }

/-- A redis test double: the store is the list of the writes, newest first. -/
def memoryClient (β : Type) : Client (List (String × β)) β :=
  { Set := fun key value st => (none, (key, value) :: st)
    Get := fun key st =>
      match st.lookup key with
      | some value => (.ok value, st)
      | none => (.error .RedisNil, st) }

/-- A gob test double: the value is the list of models; decoding into a nil slice leaves
it nil when the list is empty. -/
def memoryGob : Gob (List Model) :=
  { Encode := fun places => .ok places.elems
    Decode := fun data => .ok (if data.isEmpty then none else some data) }

end Redis

/-! ## Instrumentation decorators

`internal/search/requester.go`, `internal/search/repository.go` and
`internal/broker/http/searcher.go`.  A decorator emits its span and log events into the
trace, so the component it wraps works on a `World` too. -/

/-- The opencensus `trace.StatusCodeOK`. -/
def StatusCodeOK : Nat := 0

/-- The opencensus `trace.StatusCodeUnknown`. -/
def StatusCodeUnknown : Nat := 2

/-- Go `search.RequesterWithTrace`. -/
structure RequesterWithTrace (σ : Type) where
  base : Requester (World σ)

/-- The deferred function of `(*RequesterWithTrace).Request` (requester.go lines 32-45). -/
def RequesterWithTrace.deferred {σ : Type} (err : Option Err) (w : World σ) : World σ :=
  match err with
  | some err =>
    let w1 :=
      match Cause err with
      | .DeadlineExceeded => w
      | .Canceled => w
      | _ => w.emit (.SetStatus "requester.request" StatusCodeUnknown err.Error)
    w1.emit (.End "requester.request")
  | none =>
    (w.emit (.SetStatus "requester.request" StatusCodeOK "request successed")).emit
      (.End "requester.request")

/-- Go `(*RequesterWithTrace).Request` (requester.go lines 27-49). -/
def RequesterWithTrace.Request {σ : Type} (s : RequesterWithTrace σ) (ctx : Context)
    (p : Params) (w : World σ) : (Slice Model × Option Err) × World σ :=
  let w1 := w.emit (.StartSpan "requester.request")
  let r := s.base.Request ctx p (w1.emit (.Request ctx p))
  (r.1, RequesterWithTrace.deferred r.1.2 r.2)

/-- Go `search.NewRequesterWithTrace`. -/
def NewRequesterWithTrace {σ : Type} (requester : Requester (World σ)) :
    Requester (World σ) :=
  { Request := (RequesterWithTrace.mk requester).Request }

/-- Go `search.RepositoryWithTrace`. -/
structure RepositoryWithTrace (σ : Type) where
  base : Repository (World σ)

/-- The deferred functions of `(*RepositoryWithTrace).Cache` and `Retrieve`
(repository.go lines 30-39 and 51-60), for the span `span` and the success message. -/
def RepositoryWithTrace.deferred {σ : Type} (span message : String) (err : Option Err)
    (w : World σ) : World σ :=
  match err with
  | some err => (w.emit (.SetStatus span StatusCodeUnknown err.Error)).emit (.End span)
  | none => (w.emit (.SetStatus span StatusCodeOK message)).emit (.End span)

/-- Go `(*RepositoryWithTrace).Cache` (repository.go lines 26-43). -/
def RepositoryWithTrace.Cache {σ : Type} (s : RepositoryWithTrace σ) (ctx : Context)
    (p : Params) (places : Slice Model) (w : World σ) : Option Err × World σ :=
  let w1 := w.emit (.StartSpan "repository.cache")
  let r := s.base.Cache ctx p places (w1.emit (.Cache ctx p places))
  (r.1, RepositoryWithTrace.deferred "repository.cache" "cache successed" r.1 r.2)

/-- Go `(*RepositoryWithTrace).Retrieve` (repository.go lines 46-64). -/
def RepositoryWithTrace.Retrieve {σ : Type} (s : RepositoryWithTrace σ) (ctx : Context)
    (p : Params) (w : World σ) : (Slice Model × Option Err) × World σ :=
  let w1 := w.emit (.StartSpan "repository.retrieve")
  let r := s.base.Retrieve ctx p (w1.emit (.Retrieve ctx p))
  (r.1, RepositoryWithTrace.deferred "repository.retrieve" "retrieve successed" r.1.2 r.2)

/-- Go `search.NewRepositoryWithTrace`. -/
def NewRepositoryWithTrace {σ : Type} (repository : Repository (World σ)) :
    Repository (World σ) :=
  { Cache := (RepositoryWithTrace.mk repository).Cache
    Retrieve := (RepositoryWithTrace.mk repository).Retrieve }

/-- Go `SearcherWithLog` of `internal/broker/http`. -/
structure SearcherWithLog (σ : Type) where
  base : Searcher σ

/-- The deferred function of `(*SearcherWithLog).Search` (searcher.go lines 43-62). -/
def SearcherWithLog.deferred {σ : Type} (err : Option Err) (w : World σ) : World σ :=
  match err with
  | some err =>
    if Cause err ≠ .ErrUnavailable then w.emit (.LogError (Wrap err "search error"))
    else w.emit (.Debug "search processed")
  | none => w.emit (.Debug "search processed")

/-- Go `(*SearcherWithLog).Search` (searcher.go lines 31-66). -/
def SearcherWithLog.Search {σ : Type} (s : SearcherWithLog σ) (ctx : Context) (p : Params)
    (w : World σ) : (Slice Model × Option Err) × World σ :=
  let w1 := w.emit (.Debug "search processing")
  let r := s.base.callSearch ctx p w1
  (r.1, SearcherWithLog.deferred r.1.2 r.2)

/-- Go `NewSearcherWithLog`. -/
def NewSearcherWithLog {σ : Type} (searcher : Searcher σ) : Searcher σ :=
  { Search := (SearcherWithLog.mk searcher).Search }

/-- Go `SearcherWithTrace` of `internal/broker/http`. -/
structure SearcherWithTrace (σ : Type) where
  base : Searcher σ

/-- The deferred function of `(*SearcherWithTrace).Search` (searcher.go lines 93-102). -/
def SearcherWithTrace.deferred {σ : Type} (err : Option Err) (w : World σ) : World σ :=
  match err with
  | some err =>
    if Cause err ≠ .ErrUnavailable then
      (w.emit (.SetStatus "search.service" StatusCodeUnknown err.Error)).emit
        (.End "search.service")
    else
      (w.emit (.SetStatus "search.service" StatusCodeOK "search successed")).emit
        (.End "search.service")
  | none =>
    (w.emit (.SetStatus "search.service" StatusCodeOK "search successed")).emit
      (.End "search.service")

/-- Go `(*SearcherWithTrace).Search` (searcher.go lines 83-106); the `types` attribute is
`fmt.Sprint(p.Types)`. -/
def SearcherWithTrace.Search {σ : Type} (s : SearcherWithTrace σ) (ctx : Context)
    (p : Params) (w : World σ) : (Slice Model × Option Err) × World σ :=
  let w1 := w.emit (.StartSpan "search.service")
  let w2 := w1.emit (.AddAttributes "search.service"
    [("term", p.Term), ("locale", p.Locale),
     ("types", "[" ++ " ".intercalate p.Types.elems ++ "]")])
  let r := s.base.callSearch ctx p w2
  (r.1, SearcherWithTrace.deferred r.1.2 r.2)

/-- Go `NewSearcherWithTrace`. -/
def NewSearcherWithTrace {σ : Type} (searcher : Searcher σ) : Searcher σ :=
  { Search := (SearcherWithTrace.mk searcher).Search }

/-- The two decorators of a `Searcher`. -/
inductive SearcherDecorator where
  | WithLog
  | WithTrace
deriving DecidableEq, Repr

/-- A stack of decorators around a searcher, the outermost first; `setupServer` of
main.go builds the stack `[WithLog, WithTrace]` around the service. -/
def decorateSearcher {σ : Type} : List SearcherDecorator → Searcher σ → Searcher σ
  | [], s => s
  | .WithLog :: ds, s => NewSearcherWithLog (decorateSearcher ds s)
  | .WithTrace :: ds, s => NewSearcherWithTrace (decorateSearcher ds s)

/-- A stack of `n` tracing decorators around a requester. -/
def decorateRequester {σ : Type} : Nat → Requester (World σ) → Requester (World σ)
  | 0, r => r
  | n + 1, r => NewRequesterWithTrace (decorateRequester n r)

/-- A stack of `n` tracing decorators around a repository. -/
def decorateRepository {σ : Type} : Nat → Repository (World σ) → Repository (World σ)
  | 0, r => r
  | n + 1, r => NewRepositoryWithTrace (decorateRepository n r)

/-- A requester over a collaborator state, used where a trace is kept as well. -/
def Requester.lift {σ : Type} (r : Requester σ) : Requester (World σ) :=
  { Request := fun ctx p w =>
      ((r.Request ctx p w.state).1, { w with state := (r.Request ctx p w.state).2 }) }

/-- A repository over a collaborator state, used where a trace is kept as well. -/
def Repository.lift {σ : Type} (r : Repository σ) : Repository (World σ) :=
  { Cache := fun ctx p places w =>
      ((r.Cache ctx p places w.state).1, { w with state := (r.Cache ctx p places w.state).2 })
    Retrieve := fun ctx p w =>
      ((r.Retrieve ctx p w.state).1, { w with state := (r.Retrieve ctx p w.state).2 }) }

/-- A searcher whose values and effect on the collaborators do not depend on the trace
it is handed. -/
def Searcher.traceBlind {σ : Type} (h : Searcher σ) : Prop :=
  ∀ (ctx : Context) (p : Params) (w1 w2 : World σ), w1.state = w2.state →
    (h.Search ctx p w1).1 = (h.Search ctx p w2).1
    ∧ (h.Search ctx p w1).2.state = (h.Search ctx p w2).2.state

/-- A requester whose values and effect on the collaborators do not depend on the trace. -/
def Requester.traceBlind {σ : Type} (r : Requester (World σ)) : Prop :=
  ∀ (ctx : Context) (p : Params) (w1 w2 : World σ), w1.state = w2.state →
    (r.Request ctx p w1).1 = (r.Request ctx p w2).1
    ∧ (r.Request ctx p w1).2.state = (r.Request ctx p w2).2.state

/-- A repository whose values and effect on the collaborators do not depend on the
trace. -/
def Repository.traceBlind {σ : Type} (r : Repository (World σ)) : Prop :=
  ∀ (ctx : Context) (p : Params) (places : Slice Model) (w1 w2 : World σ),
    w1.state = w2.state →
    ((r.Cache ctx p places w1).1 = (r.Cache ctx p places w2).1
      ∧ (r.Cache ctx p places w1).2.state = (r.Cache ctx p places w2).2.state)
    ∧ ((r.Retrieve ctx p w1).1 = (r.Retrieve ctx p w2).1
      ∧ (r.Retrieve ctx p w1).2.state = (r.Retrieve ctx p w2).2.state)

/-- A searcher returning a fixed result, for the decorator test cases. -/
def searcherFunc (r : Slice Model × Option Err) : Searcher Nat :=
  { Search := fun _ _ w => (r, { w with state := w.state + 1 }) }

/-! ## Reading back a JSON string -/

/-- The value of a hexadecimal digit. -/
def hexValue (c : Char) : Option Nat :=
  let n := c.toNat
  if 0x30 ≤ n ∧ n ≤ 0x39 then some (n - 0x30)
  else if 0x61 ≤ n ∧ n ≤ 0x66 then some (n - 0x61 + 10)
  else if 0x41 ≤ n ∧ n ≤ 0x46 then some (n - 0x41 + 10)
  else none

/-- The characters a JSON parser reads from the inside of a string literal: a backslash
starts an escape (`\uXXXX`, `\"`, `\\`, `\/`, `\b`, `\f`, `\n`, `\r`, `\t`), an
unescaped quote is not allowed. -/
def jsonUnescape : List Char → Option (List Char)
  | [] => some []
  | c :: rest =>
    if c.toNat = 0x5C then
      match rest with
      | [] => none
      | e :: rest1 =>
        if e.toNat = 0x75 then
          match rest1 with
          | a :: b :: c1 :: d :: rest2 =>
            match hexValue a, hexValue b, hexValue c1, hexValue d with
            | some x, some y, some z, some u =>
              (jsonUnescape rest2).map (Char.ofNat (((x * 16 + y) * 16 + z) * 16 + u) :: ·)
            | _, _, _, _ => none
          | _ => none
        else if e.toNat = 0x22 ∨ e.toNat = 0x5C ∨ e.toNat = 0x2F then
          (jsonUnescape rest1).map (e :: ·)
        else if e.toNat = 0x62 then (jsonUnescape rest1).map (Char.ofNat 0x08 :: ·)
        else if e.toNat = 0x66 then (jsonUnescape rest1).map (Char.ofNat 0x0C :: ·)
        else if e.toNat = 0x6E then (jsonUnescape rest1).map (Char.ofNat 0x0A :: ·)
        else if e.toNat = 0x72 then (jsonUnescape rest1).map (Char.ofNat 0x0D :: ·)
        else if e.toNat = 0x74 then (jsonUnescape rest1).map (Char.ofNat 0x09 :: ·)
        else none
    else if c.toNat = 0x22 then none
    else (jsonUnescape rest).map (c :: ·)

/-- The text a JSON parser reads from a string literal: the quotes are removed and the
escapes read. -/
def jsonUnquote (t : String) : Option String :=
  match t.data with
  | [] => none
  | q :: rest =>
    if q.toNat = 0x22 ∧ rest.getLast? = some (Char.ofNat 0x22) then
      (jsonUnescape rest.dropLast).map String.mk
    else none

/-- The service after the caller cancelled: the Requester returns `(nil,
context.Canceled)`, as the HTTP requester does. -/
def cancelledService : Service Nat :=
  NewService (requesterFunc (none, some .Canceled)) (MockRepository none (none, none)) 3

/-! ## The service over the in-memory redis repository -/

/-- The redis repository of the tests over the in-memory store. -/
def memoryRepository : Repository (List (String × List Model)) :=
  Redis.NewRepository Redis.memoryGob (Redis.memoryClient (List Model))

/-- The service when the upstream answers with an empty list. -/
def emptyAnswerService : Service (List (String × List Model)) :=
  NewService (constRequester (some [], none)) memoryRepository 3

/-- The service when the upstream fails, as in `getPlaces200Cache` of search_test.go. -/
def upstreamDownService : Service (List (String × List Model)) :=
  NewService (constRequester (none, some (.fundamental "unexpected status code: 500")))
    memoryRepository 3

/-- The world with an empty store and an empty trace. -/
def emptyStore : World (List (String × List Model)) := { state := [], trace := [] }

/-! ## Helper lemmas -/

theorem newEvents_append {σ : Type} (w : World σ) (st : σ) (l : List Event) :
    newEvents w { state := st, trace := w.trace ++ l } = l := by
  simp [newEvents]

theorem Cause_Wrap (err : Err) (message : String) : Cause (Wrap err message) = Cause err := by
  simp [Wrap, Cause]

/-! ## `Service.Search` -/

/-- C1. Fresh success: when `Request` (called with the derived timeout context) returns
`(v, nil)`, `Search` returns exactly `(v, nil)`; what it did is exactly: the `Request`
call, one dispatched `Cache(ctx, p, v)` goroutine, the deferred cancel.  So `Retrieve` is
never called, exactly one cache write with arguments `p` and `v` is dispatched, and the
collaborator state is the one `Request` left.  Running what was dispatched makes exactly
one `Repository.Cache` call, with the derived context, `p` and `v`, on the state `Search`
left; its error, if any, is only logged. -/
theorem search_fresh_success {σ : Type} (s : Service σ) (ctx : Context) (p : Params)
    (w : World σ) (v : Slice Model) (st1 : σ)
    (hreq : s.requester.Request (.WithTimeout ctx s.timeout) p w.state = ((v, none), st1)) :
    (s.Search ctx p w).1 = (v, none)
    ∧ newEvents w (s.Search ctx p w).2 =
        [.Request (.WithTimeout ctx s.timeout) p, .goCache (.WithTimeout ctx s.timeout) p v,
         .cancel (.WithTimeout ctx s.timeout)]
    ∧ retrieveCalls (newEvents w (s.Search ctx p w).2) = []
    ∧ cacheCalls (newEvents w (s.Search ctx p w).2) = [(p, v)]
    ∧ (s.Search ctx p w).2.state = st1
    ∧ newEvents (s.Search ctx p w).2
        (s.runGoroutines (newEvents w (s.Search ctx p w).2) (s.Search ctx p w).2)
      = .Cache (.WithTimeout ctx s.timeout) p v ::
          (match (s.repository.Cache (.WithTimeout ctx s.timeout) p v st1).1 with
           | some err => [.LogError (Wrap err "cache failed")]
           | none => [])
    ∧ (s.runGoroutines (newEvents w (s.Search ctx p w).2) (s.Search ctx p w).2).state
      = (s.repository.Cache (.WithTimeout ctx s.timeout) p v st1).2 := by
  have hs : s.Search ctx p w = ((v, none),
      { state := st1, trace := w.trace ++ [.Request (.WithTimeout ctx s.timeout) p,
          .goCache (.WithTimeout ctx s.timeout) p v, .cancel (.WithTimeout ctx s.timeout)] }) := by
    simp [Service.Search, Service.searchBody, Service.callRequest, hreq, World.emit]
  rw [hs]
  refine ⟨rfl, newEvents_append _ _ _, ?_, ?_, rfl, ?_, ?_⟩
  · rw [newEvents_append]; rfl
  · rw [newEvents_append]; rfl
  · rw [newEvents_append]
    simp only [Service.runGoroutines, Service.cacheGoroutine, Service.callCache]
    cases (s.repository.Cache (.WithTimeout ctx s.timeout) p v st1).1 <;>
      simp [newEvents, World.emit]
  · rw [newEvents_append]
    simp only [Service.runGoroutines, Service.cacheGoroutine, Service.callCache]
    cases (s.repository.Cache (.WithTimeout ctx s.timeout) p v st1).1 <;> rfl

/-- Witness of C1: the "happy path" of service_test.go; the goroutine makes the one
`Cache` call the mock repository expects. -/
theorem search_fresh_success_witness :
    (NewService (requesterFunc (some [], none)) (MockRepository none (none, none)) 1).requester.Request
        (.WithTimeout testCtx 1) Params.zero world0.state = ((some [], none), 1)
    ∧ ((NewService (requesterFunc (some [], none)) (MockRepository none (none, none)) 1).Search
        testCtx Params.zero world0).1 = (some [], none)
    ∧ newEvents
        ((NewService (requesterFunc (some [], none)) (MockRepository none (none, none)) 1).Search
          testCtx Params.zero world0).2
        ((NewService (requesterFunc (some [], none)) (MockRepository none (none, none))
            1).runGoroutines
          (newEvents world0
            ((NewService (requesterFunc (some [], none)) (MockRepository none (none, none))
              1).Search testCtx Params.zero world0).2)
          ((NewService (requesterFunc (some [], none)) (MockRepository none (none, none))
            1).Search testCtx Params.zero world0).2)
      = [.Cache (.WithTimeout testCtx 1) Params.zero (some [])] :=
  ⟨rfl, (search_fresh_success
    (NewService (requesterFunc (some [], none)) (MockRepository none (none, none)) 1)
    testCtx Params.zero world0 (some []) 1 rfl).1,
   (search_fresh_success
    (NewService (requesterFunc (some [], none)) (MockRepository none (none, none)) 1)
    testCtx Params.zero world0 (some []) 1 rfl).2.2.2.2.2.1⟩

/-- What `Service.searchBody` does once `Request` returned a non-nil error: the switch
on the root cause. -/
theorem searchBody_of_error {σ : Type} (s : Service σ) (ctx : Context) (p : Params)
    (w : World σ) (v : Slice Model) (e : Err) (st1 : σ)
    (hreq : s.requester.Request ctx p w.state = ((v, some e), st1)) :
    s.searchBody ctx p w =
      if Cause e = .Canceled then
        ((v, none), { state := st1, trace := w.trace ++ [.Request ctx p] })
      else if Cause e = .ErrBadRequest then
        ((none, some e), { state := st1, trace := w.trace ++ [.Request ctx p] })
      else if Cause e = .DeadlineExceeded then
        s.fallback ctx p { state := st1, trace := w.trace ++ [.Request ctx p] }
      else
        s.fallback ctx p { state := st1, trace := w.trace ++ [.Request ctx p,
          .Warn (Wrap e "unexpected error on request")] } := by
  simp only [Service.searchBody, Service.callRequest, hreq]
  cases hc : Cause e <;> simp [World.emit]

/-- On the fallback path `Service.searchBody` is `Service.fallback` after the prefix. -/
theorem searchBody_fallback {σ : Type} (s : Service σ) (ctx : Context) (p : Params)
    (w : World σ) (v : Slice Model) (e : Err) (st1 : σ)
    (hreq : s.requester.Request ctx p w.state = ((v, some e), st1))
    (hc : Cause e ≠ .Canceled) (hb : Cause e ≠ .ErrBadRequest) :
    s.searchBody ctx p w =
      s.fallback ctx p { state := st1, trace := w.trace ++ fallbackPrefix ctx p e } := by
  rw [searchBody_of_error s ctx p w v e st1 hreq]
  by_cases hd : Cause e = .DeadlineExceeded <;> simp [hc, hb, hd, fallbackPrefix]

theorem cacheCalls_append (l₁ l₂ : List Event) :
    cacheCalls (l₁ ++ l₂) = cacheCalls l₁ ++ cacheCalls l₂ := by
  induction l₁ with
  | nil => rfl
  | cons e l ih => cases e <;> simp [cacheCalls, ih]

theorem retrieveCalls_append (l₁ l₂ : List Event) :
    retrieveCalls (l₁ ++ l₂) = retrieveCalls l₁ ++ retrieveCalls l₂ := by
  induction l₁ with
  | nil => rfl
  | cons e l ih => cases e <;> simp [retrieveCalls, ih]

theorem cacheCalls_fallbackPrefix (ctx : Context) (p : Params) (e : Err) :
    cacheCalls (fallbackPrefix ctx p e) = [] := by
  unfold fallbackPrefix; split <;> rfl

theorem retrieveCalls_fallbackPrefix (ctx : Context) (p : Params) (e : Err) :
    retrieveCalls (fallbackPrefix ctx p e) = [] := by
  unfold fallbackPrefix; split <;> rfl

/-- C2. Fallback hit: when `Request` fails with an error whose root cause is neither
`context.Canceled` nor `broker.ErrBadRequest` and `Retrieve(p)` (on the state `Request`
left) returns `(c, nil)`, `Search` returns exactly `(c, nil)`; it made the `Request` call,
logged the warning unless the cause is the deadline, called `Retrieve` once with `p`, ran
the deferred cancel, and dispatched no `Cache` call. -/
theorem search_fallback_hit {σ : Type} (s : Service σ) (ctx : Context) (p : Params)
    (w : World σ) (v c : Slice Model) (e : Err) (st1 st2 : σ)
    (hreq : s.requester.Request (.WithTimeout ctx s.timeout) p w.state = ((v, some e), st1))
    (hc : Cause e ≠ .Canceled) (hb : Cause e ≠ .ErrBadRequest)
    (hret : s.repository.Retrieve (.WithTimeout ctx s.timeout) p st1 = ((c, none), st2)) :
    (s.Search ctx p w).1 = (c, none)
    ∧ newEvents w (s.Search ctx p w).2 =
        fallbackPrefix (.WithTimeout ctx s.timeout) p e ++
          [.Retrieve (.WithTimeout ctx s.timeout) p, .cancel (.WithTimeout ctx s.timeout)]
    ∧ cacheCalls (newEvents w (s.Search ctx p w).2) = []
    ∧ retrieveCalls (newEvents w (s.Search ctx p w).2) = [p]
    ∧ (s.Search ctx p w).2.state = st2 := by
  have hs : s.Search ctx p w = ((c, none),
      { state := st2, trace := w.trace ++ (fallbackPrefix (.WithTimeout ctx s.timeout) p e ++
          [.Retrieve (.WithTimeout ctx s.timeout) p, .cancel (.WithTimeout ctx s.timeout)]) }) := by
    simp [Service.Search, searchBody_fallback s _ p w v e st1 hreq hc hb, Service.fallback,
      Service.callRetrieve, hret, World.emit]
  rw [hs]
  refine ⟨rfl, newEvents_append _ _ _, ?_, ?_, rfl⟩
  · rw [newEvents_append, cacheCalls_append, cacheCalls_fallbackPrefix]; rfl
  · rw [newEvents_append, retrieveCalls_append, retrieveCalls_fallbackPrefix]; rfl

/-- Witness of C2: the "request timeout" case of service_test.go. -/
theorem search_fallback_hit_witness :
    (NewService (requesterFunc (none, some .DeadlineExceeded))
        (MockRepository none (some [], none)) 1).requester.Request
        (.WithTimeout testCtx 1) Params.zero world0.state = ((none, some .DeadlineExceeded), 1)
    ∧ Cause .DeadlineExceeded ≠ .Canceled ∧ Cause .DeadlineExceeded ≠ .ErrBadRequest
    ∧ (NewService (requesterFunc (none, some .DeadlineExceeded))
        (MockRepository none (some [], none)) 1).repository.Retrieve
        (.WithTimeout testCtx 1) Params.zero 1 = ((some [], none), 2)
    ∧ ((NewService (requesterFunc (none, some .DeadlineExceeded))
        (MockRepository none (some [], none)) 1).Search testCtx Params.zero world0).1
        = (some [], none) :=
  ⟨rfl, by decide, by decide, rfl, (search_fallback_hit
    (NewService (requesterFunc (none, some .DeadlineExceeded))
      (MockRepository none (some [], none)) 1)
    testCtx Params.zero world0 none (some []) .DeadlineExceeded 1 2 rfl (by decide) (by decide)
    rfl).1⟩

/-- C3. Fallback failure: when `Request` fails with an error whose root cause is neither
`context.Canceled` nor `broker.ErrBadRequest` and `Retrieve` returns any non-nil error
`re` (`storage.ErrCacheNotFound` or any other), `Search` returns the nil place list and
exactly `ErrUnavailable`, whatever `re` and the accompanying list are; no `Cache` call is
dispatched, and only an error other than cache-not-found is logged. -/
theorem search_fallback_unavailable {σ : Type} (s : Service σ) (ctx : Context) (p : Params)
    (w : World σ) (v c : Slice Model) (e re : Err) (st1 st2 : σ)
    (hreq : s.requester.Request (.WithTimeout ctx s.timeout) p w.state = ((v, some e), st1))
    (hc : Cause e ≠ .Canceled) (hb : Cause e ≠ .ErrBadRequest)
    (hret : s.repository.Retrieve (.WithTimeout ctx s.timeout) p st1 = ((c, some re), st2)) :
    (s.Search ctx p w).1 = (none, some .ErrUnavailable)
    ∧ newEvents w (s.Search ctx p w).2 =
        fallbackPrefix (.WithTimeout ctx s.timeout) p e ++
          [.Retrieve (.WithTimeout ctx s.timeout) p] ++
          (if Cause re ≠ .ErrCacheNotFound then
            [.LogError (Wrap re "unexpected error on retrieve")] else []) ++
          [.cancel (.WithTimeout ctx s.timeout)]
    ∧ cacheCalls (newEvents w (s.Search ctx p w).2) = []
    ∧ (s.Search ctx p w).2.state = st2 := by
  have hs : s.Search ctx p w = ((none, some .ErrUnavailable),
      { state := st2, trace := w.trace ++ (fallbackPrefix (.WithTimeout ctx s.timeout) p e ++
          [.Retrieve (.WithTimeout ctx s.timeout) p] ++
          (if Cause re ≠ .ErrCacheNotFound then
            [.LogError (Wrap re "unexpected error on retrieve")] else []) ++
          [.cancel (.WithTimeout ctx s.timeout)]) }) := by
    by_cases hn : Cause re = .ErrCacheNotFound <;>
      simp [Service.Search, searchBody_fallback s _ p w v e st1 hreq hc hb, Service.fallback,
        Service.callRetrieve, hret, World.emit, hn]
  rw [hs]
  refine ⟨rfl, newEvents_append _ _ _, ?_, rfl⟩
  rw [newEvents_append]
  by_cases hn : Cause re = .ErrCacheNotFound <;>
    simp [cacheCalls_append, cacheCalls_fallbackPrefix, cacheCalls, hn]

/-- Witness of C3: the "retrieve no cache" case of service_test.go. -/
theorem search_fallback_unavailable_witness :
    (NewService (requesterFunc (none, some .DeadlineExceeded))
        (MockRepository none (none, some .ErrCacheNotFound)) 1).requester.Request
        (.WithTimeout testCtx 1) Params.zero world0.state = ((none, some .DeadlineExceeded), 1)
    ∧ Cause .DeadlineExceeded ≠ .Canceled ∧ Cause .DeadlineExceeded ≠ .ErrBadRequest
    ∧ (NewService (requesterFunc (none, some .DeadlineExceeded))
        (MockRepository none (none, some .ErrCacheNotFound)) 1).repository.Retrieve
        (.WithTimeout testCtx 1) Params.zero 1 = ((none, some .ErrCacheNotFound), 2)
    ∧ ((NewService (requesterFunc (none, some .DeadlineExceeded))
        (MockRepository none (none, some .ErrCacheNotFound)) 1).Search testCtx Params.zero
        world0).1 = (none, some .ErrUnavailable) :=
  ⟨rfl, by decide, by decide, rfl, (search_fallback_unavailable
    (NewService (requesterFunc (none, some .DeadlineExceeded))
      (MockRepository none (none, some .ErrCacheNotFound)) 1)
    testCtx Params.zero world0 none none .DeadlineExceeded .ErrCacheNotFound 1 2 rfl
    (by decide) (by decide) rfl).1⟩

/-- C4, as stated, fails: a Requester that returns a non-empty place list together with
`context.Canceled` makes `Search` return that non-empty list (with a nil error), not an
empty or nil one. -/
theorem search_cancel_counterexample :
    (NewService (requesterFunc (some [moscow], some .Canceled))
        (MockRepository none (none, none)) 1).requester.Request
        (.WithTimeout testCtx 1) Params.zero world0.state = ((some [moscow], some .Canceled), 1)
    ∧ Cause .Canceled = .Canceled
    ∧ ((NewService (requesterFunc (some [moscow], some .Canceled))
        (MockRepository none (none, none)) 1).Search testCtx Params.zero world0).1
        = (some [moscow], none)
    ∧ ((NewService (requesterFunc (some [moscow], some .Canceled))
        (MockRepository none (none, none)) 1).Search testCtx Params.zero world0).1.1.elems
        ≠ [] :=
  ⟨rfl, rfl, rfl, by simp [Service.Search, Service.searchBody, Service.callRequest, NewService,
    requesterFunc, Cause, Slice.elems]⟩

/-- C4, amended. Cancellation short-circuit: when `Request` returns `(v, e)` with the root
cause of `e` being `context.Canceled`, `Search` returns `(v, nil)`: the place list that
came with the error, unchanged (so nil or empty exactly when the Requester returned a nil
or empty list), and a nil error; it made only the `Request` call and ran the deferred
cancel, so neither `Retrieve` nor `Cache` is invoked. -/
theorem search_cancel_short_circuit {σ : Type} (s : Service σ) (ctx : Context) (p : Params)
    (w : World σ) (v : Slice Model) (e : Err) (st1 : σ)
    (hreq : s.requester.Request (.WithTimeout ctx s.timeout) p w.state = ((v, some e), st1))
    (hc : Cause e = .Canceled) :
    (s.Search ctx p w).1 = (v, none)
    ∧ newEvents w (s.Search ctx p w).2 =
        [.Request (.WithTimeout ctx s.timeout) p, .cancel (.WithTimeout ctx s.timeout)]
    ∧ retrieveCalls (newEvents w (s.Search ctx p w).2) = []
    ∧ cacheCalls (newEvents w (s.Search ctx p w).2) = []
    ∧ (s.Search ctx p w).2.state = st1 := by
  have hs : s.Search ctx p w = ((v, none),
      { state := st1, trace := w.trace ++ [.Request (.WithTimeout ctx s.timeout) p,
          .cancel (.WithTimeout ctx s.timeout)] }) := by
    simp [Service.Search, searchBody_of_error s _ p w v e st1 hreq, hc, World.emit]
  rw [hs]
  refine ⟨rfl, newEvents_append _ _ _, ?_, ?_, rfl⟩
  · rw [newEvents_append]; rfl
  · rw [newEvents_append]; rfl

/-- Witness of C4 amended: the "context cancel" case of service_test.go. -/
theorem search_cancel_short_circuit_witness :
    (NewService (requesterFunc (none, some .Canceled))
        (MockRepository none (none, none)) 1).requester.Request
        (.WithTimeout testCtx 1) Params.zero world0.state = ((none, some .Canceled), 1)
    ∧ Cause .Canceled = .Canceled
    ∧ ((NewService (requesterFunc (none, some .Canceled))
        (MockRepository none (none, none)) 1).Search testCtx Params.zero world0).1
        = (none, none) :=
  ⟨rfl, rfl, (search_cancel_short_circuit
    (NewService (requesterFunc (none, some .Canceled)) (MockRepository none (none, none)) 1)
    testCtx Params.zero world0 none .Canceled 1 rfl rfl).1⟩

/-- C5. Client-fault passthrough: when `Request` returns an error `e` whose root cause is
`broker.ErrBadRequest`, `Search` returns `(nil, e)` with the very same `e`; it made only
the `Request` call and ran the deferred cancel, so neither `Retrieve` nor `Cache` is
invoked. -/
theorem search_bad_request_passthrough {σ : Type} (s : Service σ) (ctx : Context)
    (p : Params) (w : World σ) (v : Slice Model) (e : Err) (st1 : σ)
    (hreq : s.requester.Request (.WithTimeout ctx s.timeout) p w.state = ((v, some e), st1))
    (hb : Cause e = .ErrBadRequest) :
    (s.Search ctx p w).1 = (none, some e)
    ∧ newEvents w (s.Search ctx p w).2 =
        [.Request (.WithTimeout ctx s.timeout) p, .cancel (.WithTimeout ctx s.timeout)]
    ∧ retrieveCalls (newEvents w (s.Search ctx p w).2) = []
    ∧ cacheCalls (newEvents w (s.Search ctx p w).2) = []
    ∧ (s.Search ctx p w).2.state = st1 := by
  have hs : s.Search ctx p w = ((none, some e),
      { state := st1, trace := w.trace ++ [.Request (.WithTimeout ctx s.timeout) p,
          .cancel (.WithTimeout ctx s.timeout)] }) := by
    simp [Service.Search, searchBody_of_error s _ p w v e st1 hreq, hb, World.emit]
  rw [hs]
  refine ⟨rfl, newEvents_append _ _ _, ?_, ?_, rfl⟩
  · rw [newEvents_append]; rfl
  · rw [newEvents_append]; rfl

/-- Witness of C5: a Requester whose error wraps `broker.ErrBadRequest`. -/
theorem search_bad_request_passthrough_witness :
    (NewService (requesterFunc (none, some (Wrap .ErrBadRequest "upstream")))
        (MockRepository none (none, none)) 1).requester.Request
        (.WithTimeout testCtx 1) Params.zero world0.state
        = ((none, some (Wrap .ErrBadRequest "upstream")), 1)
    ∧ Cause (Wrap .ErrBadRequest "upstream") = .ErrBadRequest
    ∧ ((NewService (requesterFunc (none, some (Wrap .ErrBadRequest "upstream")))
        (MockRepository none (none, none)) 1).Search testCtx Params.zero world0).1
        = (none, some (Wrap .ErrBadRequest "upstream")) :=
  ⟨rfl, rfl, (search_bad_request_passthrough
    (NewService (requesterFunc (none, some (Wrap .ErrBadRequest "upstream")))
      (MockRepository none (none, none)) 1)
    testCtx Params.zero world0 none (Wrap .ErrBadRequest "upstream") 1 rfl rfl).1⟩

/-! ## `searchHandler.Handle` -/

/-- C6. Status mapping: on a GET request whose form parses, handled with a writer that has
no header yet, if the Searcher returns `(v, err)` then the status written is 200 when
`err` is nil, 503 when its root cause is `search.ErrUnavailable`, 400 when its root cause
is `broker.ErrBadRequest`, and 500 for every other error; it is the lookup `statusOf` on
the error alone (not on `v`, the parameters or the writer). -/
theorem handle_status_mapping {σ : Type} (h : Searcher σ) (w : ResponseWriter)
    (r : HttpRequest) (world world1 : World σ) (form : Values) (v : Slice Model)
    (err : Option Err)
    (hm : r.Method = "GET") (hf : r.ParseForm = .ok form) (hw : w.Code = none)
    (hs : h.callSearch r.ctx (setParams Params.zero form) world = ((v, err), world1)) :
    (searchHandler.Handle h w r world).1.1.Code = some (statusOf err)
    ∧ (err = none → (searchHandler.Handle h w r world).1.1.Code = some 200)
    ∧ (∀ e, err = some e → Cause e = .ErrUnavailable →
        (searchHandler.Handle h w r world).1.1.Code = some 503)
    ∧ (∀ e, err = some e → Cause e = .ErrBadRequest →
        (searchHandler.Handle h w r world).1.1.Code = some 400)
    ∧ (∀ e, err = some e → Cause e ≠ .ErrUnavailable → Cause e ≠ .ErrBadRequest →
        (searchHandler.Handle h w r world).1.1.Code = some 500) := by
  have key : (searchHandler.Handle h w r world).1.1.Code = some (statusOf err) := by
    cases err with
    | none =>
      cases hwe : w.writeError <;>
        simp [searchHandler.Handle, hm, hf, hs, jsonEncode, ResponseWriter.Write,
          ResponseWriter.WriteHeader, hw, hwe, statusOf]
    | some e =>
      cases hc : Cause e <;>
        simp [searchHandler.Handle, hm, hf, hs, hc, statusOf, unavailableResponse,
          badRequestResponse, internalServerErrorResponse, ResponseWriter.WriteHeader, hw]
  refine ⟨key, ?_, ?_, ?_, ?_⟩
  · intro he; rw [key, he]; rfl
  · intro e he hc; rw [key, he]; simp [statusOf, hc]
  · intro e he hc; rw [key, he]; simp [statusOf, hc]
  · intro e he hu hb; rw [key, he]; simp [statusOf, hu, hb]

/-- Witness of C6: `getPlaces503` of search_test.go, the upstream fails and the cache is
empty, so the Searcher returns `ErrUnavailable` and the status is 503. -/
theorem handle_status_mapping_witness :
    getRequest.Method = "GET" ∧ getRequest.ParseForm = .ok [] ∧ NewRecorder.Code = none
    ∧ (service503.toSearcher.callSearch getRequest.ctx (setParams Params.zero []) world0).1
        = (none, some .ErrUnavailable)
    ∧ (searchHandler.Handle service503.toSearcher NewRecorder getRequest world0).1.1.Code
        = some (statusOf (some .ErrUnavailable)) :=
  ⟨rfl, rfl, rfl, rfl, (handle_status_mapping service503.toSearcher NewRecorder getRequest
    world0 (service503.toSearcher.callSearch getRequest.ctx (setParams Params.zero []) world0).2
    [] none (some .ErrUnavailable) rfl rfl rfl rfl).1⟩

/-- C7. Method restriction: for every request whose method is not GET, handled with a
writer that has no header yet, `Handle` writes status 405, writes no body, returns a nil
error, and leaves the world exactly as it was: no `Search` call is traced and the
collaborator state is untouched, so no Searcher, Requester or Repository call was made. -/
theorem handle_method_not_allowed {σ : Type} (h : Searcher σ) (w : ResponseWriter)
    (r : HttpRequest) (world : World σ) (hm : r.Method ≠ "GET") (hw : w.Code = none) :
    (searchHandler.Handle h w r world).1.1.Code = some 405
    ∧ (searchHandler.Handle h w r world).1.1.Body = w.Body
    ∧ (searchHandler.Handle h w r world).1.2 = none
    ∧ (searchHandler.Handle h w r world).2.state = world.state
    ∧ (searchHandler.Handle h w r world).2.trace = world.trace
    ∧ searchCalls (newEvents world (searchHandler.Handle h w r world).2) = [] := by
  have hh : searchHandler.Handle h w r world
      = (({ w with Code := some 405 }, none), world) := by
    simp [searchHandler.Handle, hm, methodNotAllowedResponse, ResponseWriter.WriteHeader, hw]
  rw [hh]
  refine ⟨rfl, rfl, rfl, rfl, rfl, ?_⟩
  simp [newEvents, searchCalls]

/-- Witness of C7: `getPlaces405` of search_test.go, a POST request. -/
theorem handle_method_not_allowed_witness :
    postRequest.Method ≠ "GET" ∧ NewRecorder.Code = none
    ∧ (searchHandler.Handle service503.toSearcher NewRecorder postRequest world0).1.1.Code
        = some 405
    ∧ (searchHandler.Handle service503.toSearcher NewRecorder postRequest world0).2.trace
        = [] :=
  ⟨by decide, rfl,
    (handle_method_not_allowed service503.toSearcher NewRecorder postRequest world0
      (by decide) rfl).1,
    (handle_method_not_allowed service503.toSearcher NewRecorder postRequest world0
      (by decide) rfl).2.2.2.2.1⟩

/-! ## `Requester.Request` of `internal/requester/http` -/

theorem foldl_set_length {α : Type} (step : List α → Nat → α) (init : List α)
    (js : List Nat) :
    (js.foldl (fun result j => result.set j (step result j)) init).length = init.length := by
  induction js generalizing init with
  | nil => rfl
  | cons j js ih => simp [ih]

/-- Filling a zeroed slice index by index: after the first `k` rounds the entries below `k`
are filled and the others still hold the zero value. -/
theorem foldl_set_range {α β : Type} (f : β → α) (d : β) (z : α) (g : α → β → α)
    (hg : ∀ b, g z b = f b) (l : List β) (k : Nat) (hk : k ≤ l.length) (i : Nat) :
    ((List.range k).foldl (fun result j => result.set j (g (result.getD j z) (l.getD j d)))
      (List.replicate l.length z))[i]? =
      if i < k then (l[i]?).map f else if i < l.length then some z else none := by
  induction k generalizing i with
  | zero =>
    simp [List.getElem?_replicate]
  | succ k ih =>
    have hk1 : k ≤ l.length := by omega
    have hkl : k < l.length := by omega
    rw [List.range_succ, List.foldl_append]
    simp only [List.foldl_cons, List.foldl_nil]
    rw [List.getElem?_set]
    have hlen := foldl_set_length (fun result j => g (result.getD j z) (l.getD j d))
      (List.replicate l.length z) (List.range k)
    rw [List.length_replicate] at hlen
    by_cases hik : k = i
    · subst hik
      have hz := ih hk1 k
      simp only [lt_irrefl, if_false, hkl, if_true] at hz
      rw [if_pos rfl, if_pos (by rw [hlen]; exact hkl), if_pos (Nat.lt_succ_self k)]
      rw [List.getD_eq_getElem?_getD, hz, List.getD_eq_getElem?_getD,
        List.getElem?_eq_getElem hkl]
      simp [hg]
    · rw [if_neg hik, ih hk1 i]
      by_cases h1 : i < k
      · have : i < k + 1 := by omega
        simp [h1, this]
      · have : ¬ i < k + 1 := by omega
        simp [h1, this]

/-- The translation loop computes the map of `setPlaceFields` on the zero model. -/
theorem translate_eq_map (places : Slice HTTP.Place) :
    HTTP.translate places = places.elems.map (HTTP.setPlaceFields Model.zero) := by
  apply List.ext_getElem?
  intro i
  unfold HTTP.translate Slice.len
  rw [foldl_set_range (HTTP.setPlaceFields Model.zero) HTTP.Place.zero Model.zero
    HTTP.setPlaceFields (fun _ => rfl) places.elems places.elems.length (le_refl _) i]
  by_cases h : i < places.elems.length
  · simp [h]
  · simp [h, List.getElem?_eq_none (Nat.le_of_not_lt h)]

/-- C8. Upstream record translation: when the client answers 200 and the body decodes to
the list `places`, `Request` returns a non-nil place list and a nil error; the list has
the length of `places` and, in the same order, its i-th model has `Slug` = the i-th
record's code, `Title` = its name, and `SubTitle` = its country name when the record's
type is exactly "city" and its city name for every other type. -/
theorem request_translates_records {σ : Type} (client : HTTP.Client σ) (ctx : Context)
    (p : Params) (st st1 : σ) (resp : HTTP.Response) (places : Slice HTTP.Place)
    (hdo : client.Do ctx (HTTP.endpoint ++ "?" ++ HTTP.queryToString p) st = (.ok resp, st1))
    (hstatus : resp.StatusCode = 200) (hdec : resp.Decode = .ok places) :
    ∃ result : List Model,
      (HTTP.Request client ctx p st).1 = (some result, none)
      ∧ result.length = places.len
      ∧ (∀ (i : Nat) (pl : HTTP.Place), places.elems[i]? = some pl →
          ∃ m : Model, result[i]? = some m ∧ m.Slug = pl.Code ∧ m.Title = pl.Name
            ∧ (pl.Typ = "city" → m.SubTitle = pl.CountryName)
            ∧ (pl.Typ ≠ "city" → m.SubTitle = pl.CityName)) := by
  refine ⟨places.elems.map (HTTP.setPlaceFields Model.zero), ?_, ?_, ?_⟩
  · simp [HTTP.Request, hdo, hstatus, hdec, translate_eq_map]
  · simp [Slice.len]
  · intro i pl hi
    refine ⟨HTTP.setPlaceFields Model.zero pl, ?_, ?_, ?_, ?_, ?_⟩
    · simp [List.getElem?_map, hi]
    · unfold HTTP.setPlaceFields; split <;> rfl
    · unfold HTTP.setPlaceFields; split <;> rfl
    · intro ht; simp [HTTP.setPlaceFields, HTTP.typeCity, ht]
    · intro ht; simp [HTTP.setPlaceFields, HTTP.typeCity, ht]

/-- Witness of C8: the "ok response" case of http_test.go. -/
theorem request_translates_records_witness :
    (clientFunc (.ok { StatusCode := 200, Decode := .ok (some [moscowPlace]) })).Do testCtx
        (HTTP.endpoint ++ "?" ++ HTTP.queryToString Params.zero) 0
        = (.ok { StatusCode := 200, Decode := .ok (some [moscowPlace]) }, 1)
    ∧ ∃ result : List Model,
      (HTTP.Request (clientFunc (.ok { StatusCode := 200, Decode := .ok (some [moscowPlace]) }))
        testCtx Params.zero 0).1 = (some result, none)
      ∧ result.length = 1 :=
  ⟨rfl, (request_translates_records
      (clientFunc (.ok { StatusCode := 200, Decode := .ok (some [moscowPlace]) }))
      testCtx Params.zero 0 1 { StatusCode := 200, Decode := .ok (some [moscowPlace]) }
      (some [moscowPlace]) rfl rfl rfl).imp (fun _ h => ⟨h.1, h.2.1⟩)⟩

/-- C9. Upstream status classification: when the client answers with a status other than
200, `Request` returns the nil place list and a non-nil error; the error is
`broker.ErrBadRequest` exactly when the status is 400, and for every other status it is
the `unexpected status code` error, whose root cause is none of `broker.ErrBadRequest`,
`context.DeadlineExceeded`, `context.Canceled`. -/
theorem request_status_classification {σ : Type} (client : HTTP.Client σ) (ctx : Context)
    (p : Params) (st st1 : σ) (resp : HTTP.Response)
    (hdo : client.Do ctx (HTTP.endpoint ++ "?" ++ HTTP.queryToString p) st = (.ok resp, st1))
    (hstatus : resp.StatusCode ≠ 200) :
    ∃ err : Err,
      (HTTP.Request client ctx p st).1 = (none, some err)
      ∧ (err = .ErrBadRequest ↔ resp.StatusCode = 400)
      ∧ (resp.StatusCode ≠ 400 →
          err = unexpectedStatus resp.StatusCode
          ∧ err.Error = "unexpected status code: " ++ toString resp.StatusCode
          ∧ Cause err ≠ .ErrBadRequest ∧ Cause err ≠ .DeadlineExceeded
          ∧ Cause err ≠ .Canceled) := by
  by_cases h400 : resp.StatusCode = 400
  · refine ⟨.ErrBadRequest, ?_, ?_, ?_⟩
    · simp [HTTP.Request, hdo, h400]
    · simp [h400]
    · intro h; exact absurd h400 h
  · refine ⟨unexpectedStatus resp.StatusCode, ?_, ?_, ?_⟩
    · simp [HTTP.Request, hdo, hstatus, h400]
    · simp [unexpectedStatus, h400]
    · intro _
      simp [unexpectedStatus, Cause, Err.Error]

/-- Witness of C9: the "bad response" case of http_test.go, status 500. -/
theorem request_status_classification_witness :
    (clientFunc (.ok { StatusCode := 500, Decode := .ok none })).Do testCtx
        (HTTP.endpoint ++ "?" ++ HTTP.queryToString Params.zero) 0
        = (.ok { StatusCode := 500, Decode := .ok none }, 1)
    ∧ (500 : Nat) ≠ 200
    ∧ ∃ err : Err,
      (HTTP.Request (clientFunc (.ok { StatusCode := 500, Decode := .ok none }))
        testCtx Params.zero 0).1 = (none, some err)
      ∧ (err = .ErrBadRequest ↔ (500 : Nat) = 400) :=
  ⟨rfl, by decide, (request_status_classification
      (clientFunc (.ok { StatusCode := 500, Decode := .ok none }))
      testCtx Params.zero 0 1 { StatusCode := 500, Decode := .ok none } rfl
      (by decide)).imp (fun _ h => ⟨h.1, h.2.1⟩)⟩

/-- `containsChars` decides whether the second list is a contiguous part of the first. -/
theorem containsChars_iff (s sub : List Char) :
    HTTP.containsChars s sub = true ↔ sub <:+: s := by
  induction s with
  | nil =>
    cases sub <;> simp [HTTP.containsChars]
  | cons c cs ih =>
    simp only [HTTP.containsChars, Bool.or_eq_true, ih, List.infix_cons_iff,
      List.isPrefixOf_iff_prefix]

theorem Contains_iff (s sub : String) :
    HTTP.Contains s sub = true ↔ sub.data <:+: s.data := by
  simp [HTTP.Contains, containsChars_iff]

/-- A message built by appending to the front still contains what the tail contains. -/
theorem Contains_append_left (a b sub : String) (h : HTTP.Contains b sub = true) :
    HTTP.Contains (a ++ b) sub = true := by
  rw [Contains_iff] at h ⊢
  rw [String.data_append]
  exact List.IsInfix.trans h (List.suffix_append a.data b.data).isInfix

/-- An error whose root cause is `context.DeadlineExceeded` carries its text. -/
theorem deadlineError_of_Cause (e : Err) (h : Cause e = .DeadlineExceeded) :
    HTTP.deadlineError e = true := by
  induction e with
  | DeadlineExceeded =>
    rw [HTTP.deadlineError, Contains_iff]; exact List.infix_refl _
  | withMessage c msg ih =>
    have hc : HTTP.deadlineError c = true := ih (by simpa [Cause] using h)
    unfold HTTP.deadlineError at hc ⊢
    exact Contains_append_left (msg ++ ": ") c.Error _ hc
  | _ => simp [Cause] at h

/-- An error whose root cause is `context.Canceled` carries its text. -/
theorem cancelError_of_Cause (e : Err) (h : Cause e = .Canceled) :
    HTTP.cancelError e = true := by
  induction e with
  | Canceled =>
    rw [HTTP.cancelError, Contains_iff]; exact List.infix_refl _
  | withMessage c msg ih =>
    have hc : HTTP.cancelError c = true := ih (by simpa [Cause] using h)
    unfold HTTP.cancelError at hc ⊢
    exact Contains_append_left (msg ++ ": ") c.Error _ hc
  | _ => simp [Cause] at h

/-- C10. Transport error normalization: when the HTTP client returns the error `e`,
`Request` returns the nil list and (1) exactly `context.DeadlineExceeded` when the message
of `e` contains "context deadline exceeded", whether or not it also contains "context
canceled"; (2) exactly `context.Canceled` when it contains "context canceled" but not the
deadline text; (3) otherwise `e` wrapped with "do request", whose root cause is the root
cause of `e` and is neither sentinel.  The switch of `Service.Search` then takes, for a
service over this requester: (1) the fallback without a warning, (2) the return of
`(nil, nil)` without fallback, (3) the warning about the wrapped error and the fallback,
provided the root cause of `e` is not `broker.ErrBadRequest`, which it never is for the
`*url.Error` values that `http.Client.Do` returns. -/
theorem request_transport_error_normalization {σ : Type} (client : HTTP.Client σ)
    (ctx : Context) (p : Params) (st st1 : σ) (e : Err)
    (hdo : client.Do ctx (HTTP.endpoint ++ "?" ++ HTTP.queryToString p) st = (.error e, st1)) :
    (HTTP.deadlineError e = true →
      (HTTP.Request client ctx p st).1 = (none, some .DeadlineExceeded)
      ∧ ∀ (repo : Repository σ) (timeout : Nat) (tr : List Event),
          (NewService (HTTP.New client) repo timeout).searchBody ctx p ⟨st, tr⟩
            = (NewService (HTTP.New client) repo timeout).fallback ctx p
                ⟨st1, tr ++ [.Request ctx p]⟩)
    ∧ (HTTP.deadlineError e = false → HTTP.cancelError e = true →
      (HTTP.Request client ctx p st).1 = (none, some .Canceled)
      ∧ ∀ (repo : Repository σ) (timeout : Nat) (tr : List Event),
          (NewService (HTTP.New client) repo timeout).searchBody ctx p ⟨st, tr⟩
            = ((none, none), ⟨st1, tr ++ [.Request ctx p]⟩))
    ∧ (HTTP.deadlineError e = false → HTTP.cancelError e = false →
      (HTTP.Request client ctx p st).1 = (none, some (Wrap e "do request"))
      ∧ Cause (Wrap e "do request") = Cause e
      ∧ Cause (Wrap e "do request") ≠ .DeadlineExceeded
      ∧ Cause (Wrap e "do request") ≠ .Canceled
      ∧ ∀ (repo : Repository σ) (timeout : Nat) (tr : List Event),
          Cause e ≠ .ErrBadRequest →
          (NewService (HTTP.New client) repo timeout).searchBody ctx p ⟨st, tr⟩
            = (NewService (HTTP.New client) repo timeout).fallback ctx p
                ⟨st1, tr ++ [.Request ctx p,
                  .Warn (Wrap (Wrap e "do request") "unexpected error on request")]⟩)
    ∧ (∀ (op url : String) (inner : Err), e = .urlError op url inner →
        Cause e ≠ .ErrBadRequest) := by
  refine ⟨?_, ?_, ?_, ?_⟩
  rotate_left 3
  · intro op url inner he
    subst he
    simp [Cause]
  · intro hd
    have hr : HTTP.Request client ctx p st = ((none, some .DeadlineExceeded), st1) := by
      simp [HTTP.Request, hdo, hd]
    refine ⟨by rw [hr], ?_⟩
    intro repo timeout tr
    rw [searchBody_of_error _ ctx p ⟨st, tr⟩ none .DeadlineExceeded st1
      (by simpa [NewService, HTTP.New] using hr)]
    simp [Cause]
  · intro hd hc
    have hr : HTTP.Request client ctx p st = ((none, some .Canceled), st1) := by
      simp [HTTP.Request, hdo, hd, hc]
    refine ⟨by rw [hr], ?_⟩
    intro repo timeout tr
    rw [searchBody_of_error _ ctx p ⟨st, tr⟩ none .Canceled st1
      (by simpa [NewService, HTTP.New] using hr)]
    simp [Cause]
  · intro hd hc
    have hr : HTTP.Request client ctx p st = ((none, some (Wrap e "do request")), st1) := by
      simp [HTTP.Request, hdo, hd, hc]
    have hnd : Cause e ≠ .DeadlineExceeded := by
      intro h; rw [deadlineError_of_Cause e h] at hd; exact Bool.noConfusion hd
    have hnc : Cause e ≠ .Canceled := by
      intro h; rw [cancelError_of_Cause e h] at hc; exact Bool.noConfusion hc
    refine ⟨by rw [hr], Cause_Wrap e _, by rwa [Cause_Wrap], by rwa [Cause_Wrap], ?_⟩
    intro repo timeout tr hb
    rw [searchBody_of_error _ ctx p ⟨st, tr⟩ none (Wrap e "do request") st1
      (by simpa [NewService, HTTP.New] using hr)]
    simp [Cause_Wrap, hnd, hnc, hb]

/-- Witness of C10: the client reports the deadline as a `*url.Error`; `Request` returns
the bare `context.DeadlineExceeded`. -/
theorem request_transport_error_normalization_witness :
    (clientFunc (.error transportDeadline)).Do testCtx
        (HTTP.endpoint ++ "?" ++ HTTP.queryToString Params.zero) 0
        = (.error transportDeadline, 1)
    ∧ HTTP.deadlineError transportDeadline = true
    ∧ Cause transportDeadline ≠ .DeadlineExceeded
    ∧ (HTTP.Request (clientFunc (.error transportDeadline)) testCtx Params.zero 0).1
        = (none, some .DeadlineExceeded) :=
  ⟨rfl, by decide, by decide,
    ((request_transport_error_normalization (clientFunc (.error transportDeadline)) testCtx
      Params.zero 0 1 transportDeadline rfl).1 (by decide)).1⟩

/-! ## Outcomes of `Service.Search` and the context of the cache write -/

/-- C16. Closed set of outcomes: whatever the Requester and the Repository do, the error
`Service.Search` returns is nil, exactly `ErrUnavailable`, or an error whose root cause is
`broker.ErrBadRequest` (and then it is the Requester's error); in particular its root
cause is never `context.DeadlineExceeded`, `context.Canceled` or
`storage.ErrCacheNotFound`. -/
theorem search_outcomes_closed {σ : Type} (s : Service σ) (ctx : Context) (p : Params)
    (w : World σ) :
    ((s.Search ctx p w).1.2 = none
      ∨ (s.Search ctx p w).1.2 = some .ErrUnavailable
      ∨ ∃ e, (s.Search ctx p w).1.2 = some e ∧ Cause e = .ErrBadRequest
          ∧ (s.requester.Request (.WithTimeout ctx s.timeout) p w.state).1.2 = some e)
    ∧ ∀ e, (s.Search ctx p w).1.2 = some e →
        Cause e ≠ .DeadlineExceeded ∧ Cause e ≠ .Canceled ∧ Cause e ≠ .ErrCacheNotFound := by
  have hfb : ∀ (c : Context) (w1 : World σ),
      (s.fallback c p w1).1.2 = none ∨ (s.fallback c p w1).1.2 = some .ErrUnavailable := by
    intro c w1
    cases hr : (s.callRetrieve c p w1).1.2 with
    | none => left; simp [Service.fallback, hr]
    | some re => right; simp [Service.fallback, hr]
  have main : (s.Search ctx p w).1.2 = none
      ∨ (s.Search ctx p w).1.2 = some .ErrUnavailable
      ∨ ∃ e, (s.Search ctx p w).1.2 = some e ∧ Cause e = .ErrBadRequest
          ∧ (s.requester.Request (.WithTimeout ctx s.timeout) p w.state).1.2 = some e := by
    cases hreq : s.requester.Request (.WithTimeout ctx s.timeout) p w.state with
    | mk r st1 =>
      obtain ⟨v, oe⟩ := r
      cases oe with
      | none =>
        left
        simp [Service.Search, Service.searchBody, Service.callRequest, hreq]
      | some e =>
        have hb := searchBody_of_error s (.WithTimeout ctx s.timeout) p w v e st1 hreq
        by_cases hc : Cause e = .Canceled
        · left; simp [Service.Search, hb, hc]
        · by_cases hbr : Cause e = .ErrBadRequest
          · right; right
            exact ⟨e, by simp [Service.Search, hb, hc, hbr], hbr, rfl⟩
          · by_cases hd : Cause e = .DeadlineExceeded
            · rcases hfb (.WithTimeout ctx s.timeout)
                { state := st1, trace := w.trace ++ [.Request (.WithTimeout ctx s.timeout) p] }
                with h | h
              · left; simp [Service.Search, hb, hc, hbr, hd, h]
              · right; left; simp [Service.Search, hb, hc, hbr, hd, h]
            · rcases hfb (.WithTimeout ctx s.timeout)
                { state := st1, trace := w.trace ++ [.Request (.WithTimeout ctx s.timeout) p,
                    .Warn (Wrap e "unexpected error on request")] } with h | h
              · left; simp [Service.Search, hb, hc, hbr, hd, h]
              · right; left; simp [Service.Search, hb, hc, hbr, hd, h]
  refine ⟨main, ?_⟩
  intro e he
  rcases main with h | h | ⟨e', h, hc, _⟩
  · rw [h] at he; exact Option.noConfusion he
  · rw [h] at he
    cases he
    simp [Cause]
  · rw [h] at he
    cases he
    simp [hc]

/-- C18 (the code does otherwise). On the fresh-success path the context `Service.Search`
hands to the `Cache` goroutine is exactly the timeout-bounded context derived from the
caller's context, the one whose deferred `cancel()` runs when `Search` returns: in the
trace `Search` leaves, the only goroutine context is that derived context and it is
done. -/
theorem search_cache_context_is_cancelled {σ : Type} (s : Service σ) (ctx : Context)
    (p : Params) (w : World σ) (v : Slice Model) (st1 : σ)
    (hreq : s.requester.Request (.WithTimeout ctx s.timeout) p w.state = ((v, none), st1)) :
    goCacheContexts (newEvents w (s.Search ctx p w).2) = [.WithTimeout ctx s.timeout]
    ∧ (.cancel (.WithTimeout ctx s.timeout)) ∈ newEvents w (s.Search ctx p w).2
    ∧ ctxDone (s.Search ctx p w).2.trace (.WithTimeout ctx s.timeout) = true
    ∧ (.WithTimeout ctx s.timeout) ≠ ctx := by
  have hs : s.Search ctx p w = ((v, none),
      { state := st1, trace := w.trace ++ [.Request (.WithTimeout ctx s.timeout) p,
          .goCache (.WithTimeout ctx s.timeout) p v, .cancel (.WithTimeout ctx s.timeout)] }) := by
    simp [Service.Search, Service.searchBody, Service.callRequest, hreq, World.emit]
  rw [hs, newEvents_append]
  refine ⟨rfl, by simp, ?_, ?_⟩
  · simp [ctxDone, Context.lineage]
  · intro h
    have := congrArg sizeOf h
    simp at this
    omega

/-- Witness of C18: the "happy path" of service_test.go; the goroutine gets
`WithTimeout(ctx, 1)`, cancelled when `Search` returns. -/
theorem search_cache_context_is_cancelled_witness :
    happyService.requester.Request (.WithTimeout testCtx happyService.timeout) Params.zero
        world0.state = ((some [], none), 1)
    ∧ goCacheContexts (newEvents world0 (happyService.Search testCtx Params.zero world0).2)
        = [.WithTimeout testCtx happyService.timeout]
    ∧ ctxDone (happyService.Search testCtx Params.zero world0).2.trace
        (.WithTimeout testCtx happyService.timeout) = true :=
  ⟨rfl,
    (search_cache_context_is_cancelled happyService testCtx Params.zero world0 (some []) 1
      rfl).1,
    (search_cache_context_is_cancelled happyService testCtx Params.zero world0 (some []) 1
      rfl).2.2.1⟩

/-! ## Cache key -/

/-- C11. Cache key determinism: parameters with the same Term, the same Locale and the same
sequence of Types (a nil and an empty slice hold the same, empty, sequence) have the same
key; the key is the lower-case hex encoding of the bytes of the text
`{Term Locale [t1 t2 ...]}`, a function of the field values alone. -/
theorem paramsToHex_deterministic (p q : Params) (hTerm : p.Term = q.Term)
    (hLocale : p.Locale = q.Locale) (hTypes : p.Types.elems = q.Types.elems) :
    Redis.paramsToHex p = Redis.paramsToHex q
    ∧ Redis.paramsToHex p = Redis.EncodeToString (HTTP.bytes
        ("\x7b" ++ p.Term ++ " " ++ p.Locale ++ " [" ++ " ".intercalate p.Types.elems
          ++ "]\x7d")) := by
  refine ⟨?_, rfl⟩
  simp [Redis.paramsToHex, Redis.Sprint, hTerm, hLocale, hTypes]

/-- Witness of C11: a nil and an empty slice of types, the other fields equal. -/
theorem paramsToHex_deterministic_witness :
    (Params.mk "Moscow" "en" none).Term = (Params.mk "Moscow" "en" (some [])).Term
    ∧ (Params.mk "Moscow" "en" none).Locale = (Params.mk "Moscow" "en" (some [])).Locale
    ∧ (Params.mk "Moscow" "en" none).Types.elems = (Params.mk "Moscow" "en" (some [])).Types.elems
    ∧ Redis.paramsToHex (Params.mk "Moscow" "en" none)
        = Redis.paramsToHex (Params.mk "Moscow" "en" (some [])) :=
  ⟨rfl, rfl, rfl,
    (paramsToHex_deterministic (Params.mk "Moscow" "en" none) (Params.mk "Moscow" "en" (some []))
      rfl rfl rfl).1⟩

/-! ## Text lemmas: joining, hexadecimal and UTF-8 encodings are injective -/

theorem foldl_append_string (acc : String) (l : List String) :
    l.foldl (fun r s => r ++ s) acc = acc ++ l.foldl (fun r s => r ++ s) "" := by
  induction l generalizing acc with
  | nil => simp
  | cons x xs ih =>
    simp only [List.foldl_cons]
    rw [ih (acc ++ x), ih ("" ++ x)]
    simp [String.append_assoc]

theorem join_cons (x : String) (xs : List String) :
    String.join (x :: xs) = x ++ String.join xs := by
  simp only [String.join, List.foldl_cons]
  rw [foldl_append_string]
  simp

theorem join_nil : String.join [] = "" := rfl

theorem intercalate_go (acc sep : String) (l : List String) :
    String.intercalate.go acc sep l = acc ++ String.join (l.map fun x => sep ++ x) := by
  induction l generalizing acc with
  | nil => simp [String.intercalate.go, join_nil]
  | cons x xs ih =>
    rw [String.intercalate.go, ih, List.map_cons, join_cons]
    simp [String.append_assoc]

/-- Go `strings.Join`: the first element, then each further element after the
separator. -/
theorem intercalate_cons (sep a : String) (l : List String) :
    sep.intercalate (a :: l) = a ++ String.join (l.map fun x => sep ++ x) := by
  rw [String.intercalate, intercalate_go]

theorem intercalate_nil (sep : String) : sep.intercalate [] = "" := rfl

/-- Two texts without a space, each followed by a space, agree only when they are equal
and what follows is equal. -/
theorem split_at_space (a b r r' : List Char) (ha : space ∉ a) (hb : space ∉ b)
    (h : a ++ space :: r = b ++ space :: r') : a = b ∧ r = r' := by
  induction a generalizing b with
  | nil =>
    cases b with
    | nil => simpa using h
    | cons y ys =>
      simp only [List.nil_append, List.cons_append, List.cons.injEq] at h
      exact absurd (h.1 ▸ List.mem_cons_self _ _) hb
  | cons x xs ih =>
    cases b with
    | nil =>
      simp only [List.nil_append, List.cons_append, List.cons.injEq] at h
      exact absurd (h.1 ▸ List.mem_cons_self _ _) ha
    | cons y ys =>
      simp only [List.cons_append, List.cons.injEq] at h
      have := ih ys (fun hm => ha (List.mem_cons_of_mem _ hm))
        (fun hm => hb (List.mem_cons_of_mem _ hm)) h.2
      exact ⟨by rw [h.1, this.1], this.2⟩

theorem hasSpace_false_iff (s : String) : hasSpace s = false ↔ space ∉ s.data := by
  simp [hasSpace]

/-- The characters of the elements after the first in a space-separated join. -/
theorem join_space_cons_data (x : String) (xs : List String) :
    (String.join ((x :: xs).map fun y => " " ++ y)).data
      = space :: (x.data ++ (String.join (xs.map fun y => " " ++ y)).data) := by
  rw [List.map_cons, join_cons]
  simp only [String.data_append]
  rfl

/-- A first element without a space and the rest of a space-separated join determine the
first element and the rest, when no element contains a space. -/
theorem join_space_injective_aux (l l' : List String) (a b : String)
    (ha : hasSpace a = false) (hb : hasSpace b = false)
    (hl : ∀ x ∈ l, hasSpace x = false) (hl' : ∀ x ∈ l', hasSpace x = false)
    (h : a.data ++ (String.join (l.map fun y => " " ++ y)).data
      = b.data ++ (String.join (l'.map fun y => " " ++ y)).data) :
    a = b ∧ l = l' := by
  rw [hasSpace_false_iff] at ha hb
  induction l generalizing a b l' with
  | nil =>
    cases l' with
    | nil =>
      simp only [List.map_nil, join_nil, List.append_nil] at h
      exact ⟨String.ext h, rfl⟩
    | cons y ys =>
      rw [join_space_cons_data] at h
      simp only [List.map_nil, join_nil, List.append_nil] at h
      exact absurd (h ▸ List.mem_append_right _ (List.mem_cons_self _ _)) ha
  | cons x xs ih =>
    cases l' with
    | nil =>
      rw [join_space_cons_data] at h
      simp only [List.map_nil, join_nil, List.append_nil] at h
      exact absurd (h ▸ List.mem_append_right _ (List.mem_cons_self _ _)) hb
    | cons y ys =>
      rw [join_space_cons_data, join_space_cons_data] at h
      obtain ⟨hab, hrest⟩ := split_at_space _ _ _ _ ha hb h
      have hx := (hasSpace_false_iff x).1 (hl x (List.mem_cons_self _ _))
      have hy := (hasSpace_false_iff y).1 (hl' y (List.mem_cons_self _ _))
      obtain ⟨hxy, hxs⟩ := ih ys x y hx hy (fun z hz => hl z (List.mem_cons_of_mem _ hz))
        (fun z hz => hl' z (List.mem_cons_of_mem _ hz)) hrest
      exact ⟨String.ext hab, by rw [hxy, hxs]⟩

/-- Space-separated joins of elements without a space agree only for equal lists, when
the lists have the same length or hold no empty element. -/
theorem join_space_injective (l l' : List String)
    (hl : ∀ x ∈ l, hasSpace x = false) (hl' : ∀ x ∈ l', hasSpace x = false)
    (hne : l.length = l'.length ∨ ("" ∉ l ∧ "" ∉ l'))
    (h : " ".intercalate l = " ".intercalate l') : l = l' := by
  cases l with
  | nil =>
    cases l' with
    | nil => rfl
    | cons b ys =>
      rcases hne with hlen | ⟨_, hb⟩
      · simp at hlen
      · rw [intercalate_nil, intercalate_cons] at h
        have hd := congrArg String.data h
        simp only [String.data_append] at hd
        have hb0 : b.data = [] := (List.append_eq_nil.1 hd.symm).1
        exact absurd (List.mem_cons.2 (Or.inl (String.ext hb0).symm)) hb
  | cons a xs =>
    cases l' with
    | nil =>
      rcases hne with hlen | ⟨ha, _⟩
      · simp at hlen
      · rw [intercalate_nil, intercalate_cons] at h
        have hd := congrArg String.data h
        simp only [String.data_append] at hd
        have ha0 : a.data = [] := (List.append_eq_nil.1 hd).1
        exact absurd (List.mem_cons.2 (Or.inl (String.ext ha0).symm)) ha
    | cons b ys =>
      rw [intercalate_cons, intercalate_cons] at h
      have hd := congrArg String.data h
      simp only [String.data_append] at hd
      obtain ⟨hab, hrest⟩ := join_space_injective_aux xs ys a b
        (hl a (List.mem_cons_self _ _)) (hl' b (List.mem_cons_self _ _))
        (fun z hz => hl z (List.mem_cons_of_mem _ hz))
        (fun z hz => hl' z (List.mem_cons_of_mem _ hz)) hd
      rw [hab, hrest]

theorem hexLower_injective : ∀ a < 16, ∀ b < 16, hexLower a = hexLower b → a = b := by
  decide

theorem hexByte_injective (a b : Nat) (ha : a < 256) (hb : b < 256)
    (h : Redis.hexByte a = Redis.hexByte b) : a = b := by
  simp only [Redis.hexByte, List.cons.injEq, and_true] at h
  have h1 := hexLower_injective (a / 16) (by omega) (b / 16) (by omega) h.1
  have h2 := hexLower_injective (a % 16) (Nat.mod_lt _ (by omega)) (b % 16)
    (Nat.mod_lt _ (by omega)) (by simpa [hexLower] using h.2)
  omega

/-- Go `hex.EncodeToString` is injective on byte sequences. -/
theorem EncodeToString_injective (a b : List Nat) (ha : ∀ x ∈ a, x < 256)
    (hb : ∀ x ∈ b, x < 256) (h : Redis.EncodeToString a = Redis.EncodeToString b) : a = b := by
  have hd : a.flatMap Redis.hexByte = b.flatMap Redis.hexByte := by
    simpa [Redis.EncodeToString] using congrArg String.data h
  clear h
  induction a generalizing b with
  | nil =>
    cases b with
    | nil => rfl
    | cons y ys => simp [Redis.hexByte] at hd
  | cons x xs ih =>
    cases b with
    | nil => simp [Redis.hexByte] at hd
    | cons y ys =>
      simp only [List.flatMap_cons, Redis.hexByte, List.cons_append, List.nil_append,
        List.cons.injEq] at hd
      have hxy : x = y := hexByte_injective x y (ha x (List.mem_cons_self _ _))
        (hb y (List.mem_cons_self _ _)) (by simp [Redis.hexByte, hd.1, hd.2.1])
      rw [hxy, ih ys (fun z hz => ha z (List.mem_cons_of_mem _ hz))
        (fun z hz => hb z (List.mem_cons_of_mem _ hz)) hd.2.2]

theorem char_toNat_lt (c : Char) : c.toNat < 0x110000 := by
  have h := c.valid
  simp only [UInt32.isValidChar, Nat.isValidChar] at h
  have : c.toNat = c.val.toNat := rfl
  omega

theorem utf8Bytes_lt (c : Char) : ∀ b ∈ HTTP.utf8Bytes c, b < 256 := by
  have hc := char_toNat_lt c
  intro b hb
  simp only [HTTP.utf8Bytes] at hb
  split_ifs at hb <;> simp at hb <;> omega

theorem bytes_lt (s : String) : ∀ b ∈ HTTP.bytes s, b < 256 := by
  intro b hb
  simp only [HTTP.bytes, List.mem_flatMap] at hb
  obtain ⟨c, _, hc⟩ := hb
  exact utf8Bytes_lt c b hc

/-- UTF-8 is prefix-free: the bytes of a character followed by anything determine the
character and what follows. -/
theorem utf8Bytes_prefix_free (c c' : Char) (r r' : List Nat)
    (h : HTTP.utf8Bytes c ++ r = HTTP.utf8Bytes c' ++ r') : c = c' ∧ r = r' := by
  have hc := char_toNat_lt c
  have hc' := char_toNat_lt c'
  have key : c.toNat = c'.toNat ∧ r = r' := by
    simp only [HTTP.utf8Bytes] at h
    split_ifs at h <;>
      simp only [List.cons_append, List.nil_append, List.cons.injEq] at h <;>
      first
        | (exfalso; omega)
        | (refine ⟨?_, ?_⟩
           · omega
           · simp [h])
  refine ⟨?_, key.2⟩
  rw [← Char.ofNat_toNat c, ← Char.ofNat_toNat c', key.1]

/-- The UTF-8 encoding of texts is injective. -/
theorem bytes_injective (s t : String) (h : HTTP.bytes s = HTTP.bytes t) : s = t := by
  apply String.ext
  have hd : s.data.flatMap HTTP.utf8Bytes = t.data.flatMap HTTP.utf8Bytes := h
  generalize s.data = a at hd
  generalize t.data = b at hd
  have hne : ∀ c : Char, HTTP.utf8Bytes c ≠ [] := by
    intro c
    simp only [HTTP.utf8Bytes]
    split_ifs <;> simp
  induction a generalizing b with
  | nil =>
    cases b with
    | nil => rfl
    | cons y ys =>
      simp only [List.flatMap_nil, List.flatMap_cons] at hd
      exact absurd (List.append_eq_nil.1 hd.symm).1 (hne y)
  | cons x xs ih =>
    cases b with
    | nil =>
      simp only [List.flatMap_nil, List.flatMap_cons] at hd
      exact absurd (List.append_eq_nil.1 hd).1 (hne x)
    | cons y ys =>
      simp only [List.flatMap_cons] at hd
      obtain ⟨hxy, hrest⟩ := utf8Bytes_prefix_free x y _ _ hd
      rw [hxy, ih ys hrest]

/-- The cache key determines the text it encodes. -/
theorem paramsToHex_eq_iff (p q : Params) :
    Redis.paramsToHex p = Redis.paramsToHex q ↔ Redis.Sprint p = Redis.Sprint q := by
  constructor
  · intro h
    exact bytes_injective _ _
      (EncodeToString_injective _ _ (bytes_lt _) (bytes_lt _) h)
  · intro h
    simp [Redis.paramsToHex, h]

/-- The characters of the text `fmt.Sprint` gives for the parameters. -/
theorem Sprint_data (p : Params) :
    (Redis.Sprint p).data = Char.ofNat 123 :: (p.Term.data ++ space :: (p.Locale.data ++
      space :: Char.ofNat 91 :: ((" ".intercalate p.Types.elems).data
        ++ [Char.ofNat 93, Char.ofNat 125]))) := by
  simp only [Redis.Sprint, String.data_append, List.append_assoc]
  rfl

/-- Parameters with the same Term and Locale have the same key only when the joins of
their types agree. -/
theorem Sprint_same_fields (p q : Params) (hT : p.Term = q.Term) (hL : p.Locale = q.Locale)
    (h : Redis.Sprint p = Redis.Sprint q) :
    " ".intercalate p.Types.elems = " ".intercalate q.Types.elems := by
  have hd := congrArg String.data h
  rw [Sprint_data, Sprint_data, hT, hL] at hd
  simp only [List.cons.injEq, true_and, List.append_cancel_left_eq,
    List.append_cancel_right_eq] at hd
  exact String.ext hd

/-- C12 (the code does otherwise). The queries `?term=New&locale=York+en` and
`?term=New+York&locale=en` have different Terms and Locales and the same cache key, the
hex of `{New York en []}`; after `Cache` for the first query alone, `Retrieve` for the
second, for which nothing was ever cached, returns the first query's list with a nil
error, where on the empty store it returns `storage.ErrCacheNotFound`. -/
theorem paramsToHex_collision :
    Redis.paramsToHex (Params.mk "New" "York en" none)
        = Redis.paramsToHex (Params.mk "New York" "en" none)
    ∧ (Params.mk "New" "York en" none).Term ≠ (Params.mk "New York" "en" none).Term
    ∧ (Params.mk "New" "York en" none).Locale ≠ (Params.mk "New York" "en" none).Locale
    ∧ Redis.Sprint (Params.mk "New" "York en" none) = "\x7bNew York en []\x7d"
    ∧ Redis.Sprint (Params.mk "New York" "en" none) = "\x7bNew York en []\x7d"
    ∧ ((Redis.NewRepository Redis.memoryGob (Redis.memoryClient (List Model))).Retrieve
        testCtx (Params.mk "New York" "en" none) []).1 = (none, some .ErrCacheNotFound)
    ∧ ((Redis.NewRepository Redis.memoryGob (Redis.memoryClient (List Model))).Retrieve
        testCtx (Params.mk "New York" "en" none)
        ((Redis.NewRepository Redis.memoryGob (Redis.memoryClient (List Model))).Cache
          testCtx (Params.mk "New" "York en" none) (some [moscow]) []).2).1
      = (some [moscow], none) := by
  refine ⟨?_, ?_, ?_, ?_, ?_, ?_, ?_⟩ <;> decide

/-- Where the key does identify the query: for parameters in which no Term, Locale or
type filter contains a space and no type filter is the empty text, equal cache keys imply
the same Term, the same Locale and the same sequence of Types. -/
theorem paramsToHex_injective_without_spaces (p q : Params)
    (hpT : hasSpace p.Term = false) (hpL : hasSpace p.Locale = false)
    (hpt : ∀ t ∈ p.Types.elems, hasSpace t = false) (hpe : "" ∉ p.Types.elems)
    (hqT : hasSpace q.Term = false) (hqL : hasSpace q.Locale = false)
    (hqt : ∀ t ∈ q.Types.elems, hasSpace t = false) (hqe : "" ∉ q.Types.elems)
    (h : Redis.paramsToHex p = Redis.paramsToHex q) :
    p.Term = q.Term ∧ p.Locale = q.Locale ∧ p.Types.elems = q.Types.elems := by
  have hs := (paramsToHex_eq_iff p q).1 h
  have hd := congrArg String.data hs
  rw [Sprint_data, Sprint_data] at hd
  simp only [List.cons.injEq, true_and] at hd
  obtain ⟨hT, hd1⟩ := split_at_space _ _ _ _ ((hasSpace_false_iff _).1 hpT)
    ((hasSpace_false_iff _).1 hqT) hd
  obtain ⟨hL, _⟩ := split_at_space _ _ _ _ ((hasSpace_false_iff _).1 hpL)
    ((hasSpace_false_iff _).1 hqL) hd1
  have hTerm : p.Term = q.Term := String.ext hT
  have hLocale : p.Locale = q.Locale := String.ext hL
  exact ⟨hTerm, hLocale, join_space_injective _ _ hpt hqt (Or.inr ⟨hpe, hqe⟩)
    (Sprint_same_fields p q hTerm hLocale hs)⟩

/-- C17, as stated, fails: the type filters ["a", "a a"] and ["a a", "a"] are the same
filters in a different order, and both render as `[a a a]`, so the keys are equal. -/
theorem paramsToHex_order_counterexample :
    (Params.mk "" "" (some ["a a", "a"])).Types.elems.Perm
        (Params.mk "" "" (some ["a", "a a"])).Types.elems
    ∧ (Params.mk "" "" (some ["a a", "a"])).Types.elems
        ≠ (Params.mk "" "" (some ["a", "a a"])).Types.elems
    ∧ Redis.paramsToHex (Params.mk "" "" (some ["a", "a a"]))
        = Redis.paramsToHex (Params.mk "" "" (some ["a a", "a"])) :=
  ⟨List.Perm.swap "a" "a a" [], by decide, by decide⟩

/-- C17, amended. For parameters with the same Term and the same Locale whose type
filters contain no space: if the Types of `q` are a permutation of the Types of `p` and
not the same sequence, the cache keys differ. -/
theorem paramsToHex_order_sensitive (p q : Params) (hT : p.Term = q.Term)
    (hL : p.Locale = q.Locale) (hperm : q.Types.elems.Perm p.Types.elems)
    (hne : q.Types.elems ≠ p.Types.elems)
    (hs : ∀ t ∈ p.Types.elems, hasSpace t = false) :
    Redis.paramsToHex p ≠ Redis.paramsToHex q := by
  intro h
  have hsq : ∀ t ∈ q.Types.elems, hasSpace t = false :=
    fun t ht => hs t (hperm.subset ht)
  have hj := Sprint_same_fields p q hT hL ((paramsToHex_eq_iff p q).1 h)
  exact hne (join_space_injective _ _ hs hsq (Or.inl hperm.length_eq.symm) hj).symm

/-- Witness of C17 amended: the types of `Test_queryToString` in both orders. -/
theorem paramsToHex_order_sensitive_witness :
    (Params.mk "Moscow" "ru" (some ["airport", "city"])).Types.elems.Perm
        (Params.mk "Moscow" "ru" (some ["city", "airport"])).Types.elems
    ∧ (Params.mk "Moscow" "ru" (some ["airport", "city"])).Types.elems
        ≠ (Params.mk "Moscow" "ru" (some ["city", "airport"])).Types.elems
    ∧ (∀ t ∈ (Params.mk "Moscow" "ru" (some ["city", "airport"])).Types.elems,
        hasSpace t = false)
    ∧ Redis.paramsToHex (Params.mk "Moscow" "ru" (some ["city", "airport"]))
        ≠ Redis.paramsToHex (Params.mk "Moscow" "ru" (some ["airport", "city"])) :=
  ⟨List.Perm.swap "city" "airport" [], by decide, by decide,
    paramsToHex_order_sensitive (Params.mk "Moscow" "ru" (some ["city", "airport"]))
      (Params.mk "Moscow" "ru" (some ["airport", "city"])) rfl rfl
      (List.Perm.swap "city" "airport" []) (by decide) (by decide)⟩

/-! ## `queryToString` -/

/-- Adding the types one by one to values that already hold `types[]` first appends them
in order. -/
theorem foldl_Add_types (ts acc : List String) (L T : String) :
    ts.foldl (fun v t => HTTP.Values.Add v "types[]" t)
        [("types[]", acc), ("locale", [L]), ("term", [T])]
      = [("types[]", acc ++ ts), ("locale", [L]), ("term", [T])] := by
  induction ts generalizing acc with
  | nil => simp
  | cons t ts ih =>
    have hstep : HTTP.Values.Add [("types[]", acc), ("locale", [L]), ("term", [T])] "types[]" t
        = [("types[]", acc ++ [t]), ("locale", [L]), ("term", [T])] := by
      simp [HTTP.Values.Add, List.lookup, List.filter]
    rw [List.foldl_cons, hstep, ih]
    simp

theorem key_order :
    "locale" < "term" ∧ ¬ ("types[]" < "locale") ∧ ¬ ("types[]" < "term") := by
  simp only [String.lt_iff_toList_lt]
  decide

theorem sortKeys_with_types :
    HTTP.sortKeys ["types[]", "locale", "term"] = ["locale", "term", "types[]"] := by
  simp only [HTTP.sortKeys, List.foldr, HTTP.insertKey, String.lt_iff_toList_lt]
  decide

theorem sortKeys_without_types : HTTP.sortKeys ["locale", "term"] = ["locale", "term"] := by
  simp only [HTTP.sortKeys, List.foldr, HTTP.insertKey, String.lt_iff_toList_lt]
  decide

theorem QueryEscape_keys :
    HTTP.QueryEscape "locale" = "locale" ∧ HTTP.QueryEscape "term" = "term"
    ∧ HTTP.QueryEscape "types[]" = "types%5B%5D" := by
  decide

theorem key_literals (x : String) :
    "locale" ++ ("=" ++ x) = "locale=" ++ x
    ∧ "&" ++ ("term" ++ ("=" ++ x)) = "&term=" ++ x
    ∧ "&" ++ ("types%5B%5D" ++ ("=" ++ x)) = "&types%5B%5D=" ++ x := by
  refine ⟨?_, ?_, ?_⟩ <;> (apply String.ext; simp only [String.data_append]; rfl)

theorem key_lookups :
    (("locale" : String) == "types[]") = false ∧ (("locale" : String) == "locale") = true
    ∧ (("term" : String) == "types[]") = false ∧ (("term" : String) == "locale") = false
    ∧ (("term" : String) == "term") = true ∧ (("types[]" : String) == "types[]") = true := by
  decide

/-- C20. Upstream query string: `queryToString(p)` is `locale=` + esc(Locale) + `&term=`
+ esc(Term) followed, for each type `t` in its original order, by `&types%5B%5D=` +
esc(t), with esc = `url.QueryEscape`; locale and term appear once each, also when empty,
the keys are in sorted order and the order of the types is kept. -/
theorem queryToString_eq (p : Params) :
    HTTP.queryToString p =
      "locale=" ++ HTTP.QueryEscape p.Locale ++ "&term=" ++ HTTP.QueryEscape p.Term
        ++ String.join (p.Types.elems.map fun t => "&types%5B%5D=" ++ HTTP.QueryEscape t) := by
  have hv2 : HTTP.Values.Set (HTTP.Values.Set [] "term" p.Term) "locale" p.Locale
      = [("locale", [p.Locale]), ("term", [p.Term])] := by
    simp [HTTP.Values.Set, List.filter]
  unfold HTTP.queryToString
  simp only [hv2]
  cases hts : p.Types.elems with
  | nil =>
    simp only [List.foldl_nil, List.map_nil, join_nil]
    simp only [HTTP.Values.Encode, List.map_cons, List.map_nil, sortKeys_without_types,
      List.flatMap_cons, List.flatMap_nil, List.lookup, key_lookups, Option.getD_some,
      List.append_nil, List.cons_append, List.nil_append, QueryEscape_keys, intercalate_cons,
      join_cons, join_nil, key_literals, String.append_assoc]
  | cons t ts =>
    have hadd : HTTP.Values.Add [("locale", [p.Locale]), ("term", [p.Term])] "types[]" t
        = [("types[]", [] ++ [t]), ("locale", [p.Locale]), ("term", [p.Term])] := by
      simp [HTTP.Values.Add, List.lookup]
    rw [List.foldl_cons, hadd, foldl_Add_types]
    simp only [HTTP.Values.Encode, List.map_cons, List.map_nil, sortKeys_with_types,
      List.flatMap_cons, List.flatMap_nil, List.lookup, key_lookups, Option.getD_some,
      List.append_nil, List.cons_append, List.nil_append, QueryEscape_keys, intercalate_cons,
      join_cons, join_nil, key_literals, String.append_assoc, List.map_map]
    have hf : ((fun x => "&" ++ x) ∘ fun val => "types%5B%5D" ++ ("=" ++ HTTP.QueryEscape val))
        = fun t => "&types%5B%5D=" ++ HTTP.QueryEscape t := by
      funext a
      simp only [Function.comp, key_literals]
    rw [hf]

/-! ## Redis repository -/

/-- C13. Cache round-trip: with a gob codec that decodes what it encoded to the same
models (a nil and an empty slice count as the same list) and a redis client that returns,
on `Get` right after a successful `Set` of a key, the value set: if `Cache(p, v)`
succeeds, then `Retrieve(p)` on the state it left succeeds and returns a list with the
same length and, in order, the same records as `v`. -/
theorem cache_retrieve_round_trip {σ β : Type} (gob : Redis.Gob β) (client : Redis.Client σ β)
    (ctx ctx1 : Context) (p : Params) (v : Slice Model) (st st1 : σ)
    (hgob : ∀ (x : Slice Model) (b : β), gob.Encode x = .ok b →
      ∃ y, gob.Decode b = .ok y ∧ y.elems = x.elems)
    (hstore : ∀ (k : String) (b : β) (s s1 : σ), client.Set k b s = (none, s1) →
      (client.Get k s1).1 = .ok b)
    (hcache : Redis.Cache gob client ctx p v st = (none, st1)) :
    ∃ v1 : Slice Model,
      ((Redis.NewRepository gob client).Retrieve ctx1 p st1).1 = (v1, none)
      ∧ v1.elems = v.elems ∧ v1.len = v.len
      ∧ ∀ i : Nat, v1.elems[i]? = v.elems[i]? := by
  unfold Redis.Cache at hcache
  cases henc : gob.Encode v with
  | error err => simp [henc] at hcache
  | ok buf =>
    simp only [henc] at hcache
    cases hset : client.Set (Redis.paramsToHex p) buf st with
    | mk oe s2 =>
      cases oe with
      | some err => simp [hset] at hcache
      | none =>
        simp only [hset, Prod.mk.injEq, true_and] at hcache
        subst hcache
        obtain ⟨y, hdec, hy⟩ := hgob v buf henc
        have hget := hstore _ _ _ _ hset
        refine ⟨y, ?_, hy, by simp [Slice.len, hy], fun i => by rw [hy]⟩
        simp [Redis.NewRepository, Redis.Retrieve, hget, hdec]

/-- Witness of C13: `getPlaces200Cache` of search_test.go, Moscow cached for
`search.Params{}` and retrieved. -/
theorem cache_retrieve_round_trip_witness :
    (∀ (x : Slice Model) (b : List Model), Redis.memoryGob.Encode x = .ok b →
      ∃ y, Redis.memoryGob.Decode b = .ok y ∧ y.elems = x.elems)
    ∧ (∀ (k : String) (b : List Model) (s s1 : List (String × List Model)),
        (Redis.memoryClient (List Model)).Set k b s = (none, s1) →
        ((Redis.memoryClient (List Model)).Get k s1).1 = .ok b)
    ∧ Redis.Cache Redis.memoryGob (Redis.memoryClient (List Model)) testCtx Params.zero
        (some [moscow]) [] = (none, [(Redis.paramsToHex Params.zero, [moscow])])
    ∧ ∃ v1 : Slice Model,
        ((Redis.NewRepository Redis.memoryGob (Redis.memoryClient (List Model))).Retrieve
          testCtx Params.zero [(Redis.paramsToHex Params.zero, [moscow])]).1 = (v1, none)
        ∧ v1.elems = [moscow] := by
  have hgob : ∀ (x : Slice Model) (b : List Model), Redis.memoryGob.Encode x = .ok b →
      ∃ y, Redis.memoryGob.Decode b = .ok y ∧ y.elems = x.elems := by
    intro x b hb
    simp only [Redis.memoryGob, Except.ok.injEq] at hb
    subst hb
    cases x with
    | none => exact ⟨none, rfl, rfl⟩
    | some l =>
      cases l with
      | nil => exact ⟨none, rfl, rfl⟩
      | cons m ms => exact ⟨some (m :: ms), rfl, rfl⟩
  have hstore : ∀ (k : String) (b : List Model) (s s1 : List (String × List Model)),
      (Redis.memoryClient (List Model)).Set k b s = (none, s1) →
      ((Redis.memoryClient (List Model)).Get k s1).1 = .ok b := by
    intro k b s s1 hs
    simp only [Redis.memoryClient, Prod.mk.injEq, true_and] at hs
    subst hs
    simp [Redis.memoryClient, List.lookup]
  exact ⟨hgob, hstore, rfl,
    (cache_retrieve_round_trip Redis.memoryGob (Redis.memoryClient (List Model)) testCtx
      testCtx Params.zero (some [moscow]) [] [(Redis.paramsToHex Params.zero, [moscow])]
      hgob hstore rfl).imp (fun _ h => ⟨h.1, h.2.1⟩)⟩

/-! ## Instrumentation decorators -/

theorem emit_state {σ : Type} (w : World σ) (e : Event) : (w.emit e).state = w.state := rfl

theorem RequesterWithTrace_deferred_state {σ : Type} (err : Option Err) (w : World σ) :
    (RequesterWithTrace.deferred err w).state = w.state := by
  cases err with
  | none => rfl
  | some e =>
    simp only [RequesterWithTrace.deferred]
    cases Cause e <;> rfl

theorem RepositoryWithTrace_deferred_state {σ : Type} (span message : String)
    (err : Option Err) (w : World σ) :
    (RepositoryWithTrace.deferred span message err w).state = w.state := by
  cases err <;> rfl

theorem SearcherWithLog_deferred_state {σ : Type} (err : Option Err) (w : World σ) :
    (SearcherWithLog.deferred err w).state = w.state := by
  cases err with
  | none => rfl
  | some e =>
    simp only [SearcherWithLog.deferred]
    split <;> rfl

theorem SearcherWithTrace_deferred_state {σ : Type} (err : Option Err) (w : World σ) :
    (SearcherWithTrace.deferred err w).state = w.state := by
  cases err with
  | none => rfl
  | some e =>
    simp only [SearcherWithTrace.deferred]
    split <;> rfl

/-- A stack of searcher decorators makes one call on the searcher it wraps, in a world
with the collaborator state it was given, and returns what that call returned. -/
theorem decorateSearcher_call {σ : Type} (ds : List SearcherDecorator) (base : Searcher σ)
    (ctx : Context) (p : Params) (w : World σ) :
    ∃ w0 : World σ, w0.state = w.state
      ∧ ((decorateSearcher ds base).Search ctx p w).1 = (base.Search ctx p w0).1
      ∧ ((decorateSearcher ds base).Search ctx p w).2.state
          = (base.Search ctx p w0).2.state := by
  induction ds generalizing w with
  | nil => exact ⟨w, rfl, rfl, rfl⟩
  | cons d ds ih =>
    cases d with
    | WithLog =>
      obtain ⟨w0, h0, h1, h2⟩ :=
        ih (((w.emit (.Debug "search processing"))).emit (.Search ctx p))
      refine ⟨w0, h0, ?_, ?_⟩
      · simpa [decorateSearcher, NewSearcherWithLog, SearcherWithLog.Search,
          Searcher.callSearch] using h1
      · simpa [decorateSearcher, NewSearcherWithLog, SearcherWithLog.Search,
          Searcher.callSearch, SearcherWithLog_deferred_state] using h2
    | WithTrace =>
      obtain ⟨w0, h0, h1, h2⟩ :=
        ih (((w.emit (.StartSpan "search.service")).emit (.AddAttributes "search.service"
          [("term", p.Term), ("locale", p.Locale),
           ("types", "[" ++ " ".intercalate p.Types.elems ++ "]")])).emit (.Search ctx p))
      refine ⟨w0, h0, ?_, ?_⟩
      · simpa [decorateSearcher, NewSearcherWithTrace, SearcherWithTrace.Search,
          Searcher.callSearch] using h1
      · simpa [decorateSearcher, NewSearcherWithTrace, SearcherWithTrace.Search,
          Searcher.callSearch, SearcherWithTrace_deferred_state] using h2

theorem decorateRequester_call {σ : Type} (n : Nat) (base : Requester (World σ))
    (ctx : Context) (p : Params) (w : World σ) :
    ∃ w0 : World σ, w0.state = w.state
      ∧ ((decorateRequester n base).Request ctx p w).1 = (base.Request ctx p w0).1
      ∧ ((decorateRequester n base).Request ctx p w).2.state
          = (base.Request ctx p w0).2.state := by
  induction n generalizing w with
  | zero => exact ⟨w, rfl, rfl, rfl⟩
  | succ n ih =>
    obtain ⟨w0, h0, h1, h2⟩ :=
      ih ((w.emit (.StartSpan "requester.request")).emit (.Request ctx p))
    refine ⟨w0, h0, ?_, ?_⟩
    · simpa [decorateRequester, NewRequesterWithTrace, RequesterWithTrace.Request] using h1
    · simpa [decorateRequester, NewRequesterWithTrace, RequesterWithTrace.Request,
        RequesterWithTrace_deferred_state] using h2

theorem decorateRepository_Cache_call {σ : Type} (n : Nat) (base : Repository (World σ))
    (ctx : Context) (p : Params) (places : Slice Model) (w : World σ) :
    ∃ w0 : World σ, w0.state = w.state
      ∧ ((decorateRepository n base).Cache ctx p places w).1
          = (base.Cache ctx p places w0).1
      ∧ ((decorateRepository n base).Cache ctx p places w).2.state
          = (base.Cache ctx p places w0).2.state := by
  induction n generalizing w with
  | zero => exact ⟨w, rfl, rfl, rfl⟩
  | succ n ih =>
    obtain ⟨w0, h0, h1, h2⟩ :=
      ih ((w.emit (.StartSpan "repository.cache")).emit (.Cache ctx p places))
    refine ⟨w0, h0, ?_, ?_⟩
    · simpa [decorateRepository, NewRepositoryWithTrace, RepositoryWithTrace.Cache] using h1
    · simpa [decorateRepository, NewRepositoryWithTrace, RepositoryWithTrace.Cache,
        RepositoryWithTrace_deferred_state] using h2

theorem decorateRepository_Retrieve_call {σ : Type} (n : Nat) (base : Repository (World σ))
    (ctx : Context) (p : Params) (w : World σ) :
    ∃ w0 : World σ, w0.state = w.state
      ∧ ((decorateRepository n base).Retrieve ctx p w).1 = (base.Retrieve ctx p w0).1
      ∧ ((decorateRepository n base).Retrieve ctx p w).2.state
          = (base.Retrieve ctx p w0).2.state := by
  induction n generalizing w with
  | zero => exact ⟨w, rfl, rfl, rfl⟩
  | succ n ih =>
    obtain ⟨w0, h0, h1, h2⟩ :=
      ih ((w.emit (.StartSpan "repository.retrieve")).emit (.Retrieve ctx p))
    refine ⟨w0, h0, ?_, ?_⟩
    · simpa [decorateRepository, NewRepositoryWithTrace, RepositoryWithTrace.Retrieve]
        using h1
    · simpa [decorateRepository, NewRepositoryWithTrace, RepositoryWithTrace.Retrieve,
        RepositoryWithTrace_deferred_state] using h2

/-- A requester over a collaborator state does not look at the trace. -/
theorem Requester_lift_traceBlind {σ : Type} (r : Requester σ) : r.lift.traceBlind := by
  intro ctx p w1 w2 h
  simp [Requester.lift, h]

/-- A repository over a collaborator state does not look at the trace. -/
theorem Repository_lift_traceBlind {σ : Type} (r : Repository σ) : r.lift.traceBlind := by
  intro ctx p places w1 w2 h
  simp [Repository.lift, h]

theorem fallback_traceBlind {σ : Type} (s : Service σ) (ctx : Context) (p : Params)
    (w1 w2 : World σ) (h : w1.state = w2.state) :
    (s.fallback ctx p w1).1 = (s.fallback ctx p w2).1
    ∧ (s.fallback ctx p w1).2.state = (s.fallback ctx p w2).2.state := by
  simp only [Service.fallback, Service.callRetrieve, h]
  cases (s.repository.Retrieve ctx p w2.state).1.2 with
  | none => exact ⟨rfl, rfl⟩
  | some e =>
    refine ⟨rfl, ?_⟩
    by_cases hc : Cause e = .ErrCacheNotFound <;> simp [hc, World.emit]

/-- The service does not look at the trace: its values and its effect on the
collaborators depend on the collaborator state alone. -/
theorem Service_toSearcher_traceBlind {σ : Type} (s : Service σ) :
    s.toSearcher.traceBlind := by
  intro ctx p w1 w2 h
  simp only [Service.toSearcher, Service.Search, emit_state]
  cases hreq : s.requester.Request (.WithTimeout ctx s.timeout) p w2.state with
  | mk r st1 =>
    obtain ⟨v, oe⟩ := r
    have hreq1 : s.requester.Request (.WithTimeout ctx s.timeout) p w1.state
        = ((v, oe), st1) := by rw [h]; exact hreq
    cases oe with
    | none =>
      simp [Service.searchBody, Service.callRequest, hreq, hreq1, World.emit]
    | some e =>
      rw [searchBody_of_error s _ p w1 v e st1 hreq1, searchBody_of_error s _ p w2 v e st1 hreq]
      by_cases hc : Cause e = .Canceled
      · simp [hc]
      · by_cases hb : Cause e = .ErrBadRequest
        · simp [hc, hb]
        · by_cases hd : Cause e = .DeadlineExceeded
          · simp only [hc, hb, hd, if_false, if_true]
            exact fallback_traceBlind s _ p _ _ rfl
          · simp only [hc, hb, hd, if_false]
            exact fallback_traceBlind s _ p _ _ rfl

/-- C14. Decorator transparency: each of `SearcherWithLog.Search`,
`SearcherWithTrace.Search`, `RequesterWithTrace.Request`, `RepositoryWithTrace.Cache` and
`RepositoryWithTrace.Retrieve` makes one call on the wrapped component, with the context,
the parameters (and the place list) it received and on the collaborator state it
received, returns exactly the values and the error of that call, leaves the collaborator
state that call left, and adds only its own epilogue to the trace.  Any stack of these
decorators returns what one call on the bare component returns on the same collaborator
state; for a component that does not look at the trace, that is what the bare component
returns in the very world the stack was called in. -/
theorem decorators_transparent {σ : Type} :
    (∀ (base : Searcher σ) (ctx : Context) (p : Params) (w : World σ),
      (SearcherWithLog.mk base).Search ctx p w
        = ((base.Search ctx p ((w.emit (.Debug "search processing")).emit (.Search ctx p))).1,
           SearcherWithLog.deferred
             (base.Search ctx p ((w.emit (.Debug "search processing")).emit
               (.Search ctx p))).1.2
             (base.Search ctx p ((w.emit (.Debug "search processing")).emit
               (.Search ctx p))).2)
      ∧ ((SearcherWithLog.mk base).Search ctx p w).2.state
        = (base.Search ctx p ((w.emit (.Debug "search processing")).emit
            (.Search ctx p))).2.state)
    ∧ (∀ (base : Searcher σ) (ctx : Context) (p : Params) (w : World σ),
      ∃ w0 : World σ, w0.state = w.state
        ∧ w0.trace = w.trace ++ [.StartSpan "search.service",
            .AddAttributes "search.service" [("term", p.Term), ("locale", p.Locale),
              ("types", "[" ++ " ".intercalate p.Types.elems ++ "]")], .Search ctx p]
        ∧ (SearcherWithTrace.mk base).Search ctx p w
          = ((base.Search ctx p w0).1,
             SearcherWithTrace.deferred (base.Search ctx p w0).1.2 (base.Search ctx p w0).2)
        ∧ ((SearcherWithTrace.mk base).Search ctx p w).2.state
          = (base.Search ctx p w0).2.state)
    ∧ (∀ (base : Requester (World σ)) (ctx : Context) (p : Params) (w : World σ),
      ∃ w0 : World σ, w0.state = w.state
        ∧ w0.trace = w.trace ++ [.StartSpan "requester.request", .Request ctx p]
        ∧ (RequesterWithTrace.mk base).Request ctx p w
          = ((base.Request ctx p w0).1,
             RequesterWithTrace.deferred (base.Request ctx p w0).1.2
               (base.Request ctx p w0).2)
        ∧ ((RequesterWithTrace.mk base).Request ctx p w).2.state
          = (base.Request ctx p w0).2.state)
    ∧ (∀ (base : Repository (World σ)) (ctx : Context) (p : Params) (places : Slice Model)
        (w : World σ),
      ∃ w0 : World σ, w0.state = w.state
        ∧ w0.trace = w.trace ++ [.StartSpan "repository.cache", .Cache ctx p places]
        ∧ (RepositoryWithTrace.mk base).Cache ctx p places w
          = ((base.Cache ctx p places w0).1,
             RepositoryWithTrace.deferred "repository.cache" "cache successed"
               (base.Cache ctx p places w0).1 (base.Cache ctx p places w0).2)
        ∧ ((RepositoryWithTrace.mk base).Cache ctx p places w).2.state
          = (base.Cache ctx p places w0).2.state)
    ∧ (∀ (base : Repository (World σ)) (ctx : Context) (p : Params) (w : World σ),
      ∃ w0 : World σ, w0.state = w.state
        ∧ w0.trace = w.trace ++ [.StartSpan "repository.retrieve", .Retrieve ctx p]
        ∧ (RepositoryWithTrace.mk base).Retrieve ctx p w
          = ((base.Retrieve ctx p w0).1,
             RepositoryWithTrace.deferred "repository.retrieve" "retrieve successed"
               (base.Retrieve ctx p w0).1.2 (base.Retrieve ctx p w0).2)
        ∧ ((RepositoryWithTrace.mk base).Retrieve ctx p w).2.state
          = (base.Retrieve ctx p w0).2.state)
    ∧ (∀ (ds : List SearcherDecorator) (base : Searcher σ) (ctx : Context) (p : Params)
        (w : World σ),
      (∃ w0 : World σ, w0.state = w.state
        ∧ ((decorateSearcher ds base).Search ctx p w).1 = (base.Search ctx p w0).1
        ∧ ((decorateSearcher ds base).Search ctx p w).2.state
            = (base.Search ctx p w0).2.state)
      ∧ (base.traceBlind →
          ((decorateSearcher ds base).Search ctx p w).1 = (base.Search ctx p w).1
          ∧ ((decorateSearcher ds base).Search ctx p w).2.state
              = (base.Search ctx p w).2.state))
    ∧ (∀ (n : Nat) (base : Requester (World σ)) (ctx : Context) (p : Params) (w : World σ),
      base.traceBlind →
        ((decorateRequester n base).Request ctx p w).1 = (base.Request ctx p w).1
        ∧ ((decorateRequester n base).Request ctx p w).2.state
            = (base.Request ctx p w).2.state)
    ∧ (∀ (n : Nat) (base : Repository (World σ)) (ctx : Context) (p : Params)
        (places : Slice Model) (w : World σ),
      base.traceBlind →
        (((decorateRepository n base).Cache ctx p places w).1
            = (base.Cache ctx p places w).1
          ∧ ((decorateRepository n base).Cache ctx p places w).2.state
            = (base.Cache ctx p places w).2.state)
        ∧ (((decorateRepository n base).Retrieve ctx p w).1 = (base.Retrieve ctx p w).1
          ∧ ((decorateRepository n base).Retrieve ctx p w).2.state
            = (base.Retrieve ctx p w).2.state)) := by
  refine ⟨?_, ?_, ?_, ?_, ?_, ?_, ?_, ?_⟩
  · intro base ctx p w
    exact ⟨rfl, SearcherWithLog_deferred_state _ _⟩
  · intro base ctx p w
    refine ⟨((w.emit (.StartSpan "search.service")).emit (.AddAttributes "search.service"
      [("term", p.Term), ("locale", p.Locale),
       ("types", "[" ++ " ".intercalate p.Types.elems ++ "]")])).emit (.Search ctx p),
      rfl, ?_, rfl, SearcherWithTrace_deferred_state _ _⟩
    simp [World.emit]
  · intro base ctx p w
    refine ⟨(w.emit (.StartSpan "requester.request")).emit (.Request ctx p),
      rfl, ?_, rfl, RequesterWithTrace_deferred_state _ _⟩
    simp [World.emit]
  · intro base ctx p places w
    refine ⟨(w.emit (.StartSpan "repository.cache")).emit (.Cache ctx p places),
      rfl, ?_, rfl, RepositoryWithTrace_deferred_state _ _ _ _⟩
    simp [World.emit]
  · intro base ctx p w
    refine ⟨(w.emit (.StartSpan "repository.retrieve")).emit (.Retrieve ctx p),
      rfl, ?_, rfl, RepositoryWithTrace_deferred_state _ _ _ _⟩
    simp [World.emit]
  · intro ds base ctx p w
    refine ⟨decorateSearcher_call ds base ctx p w, ?_⟩
    intro hb
    obtain ⟨w0, h0, h1, h2⟩ := decorateSearcher_call ds base ctx p w
    rw [h1, h2]
    exact hb ctx p w0 w h0
  · intro n base ctx p w hb
    obtain ⟨w0, h0, h1, h2⟩ := decorateRequester_call n base ctx p w
    rw [h1, h2]
    exact hb ctx p w0 w h0
  · intro n base ctx p places w hb
    obtain ⟨w0, h0, h1, h2⟩ := decorateRepository_Cache_call n base ctx p places w
    obtain ⟨w1, g0, g1, g2⟩ := decorateRepository_Retrieve_call n base ctx p w
    rw [h1, h2, g1, g2]
    exact ⟨(hb ctx p places w0 w h0).1, (hb ctx p places w1 w g0).2⟩

/-- C19, as stated, fails: `SearcherWithTrace.Search` around a searcher that returns
`context.DeadlineExceeded`, and `RepositoryWithTrace.Retrieve` and `Cache` around a
repository that returns `context.Canceled`, each give their span the failure status
`StatusCodeUnknown`. -/
theorem trace_status_counterexample :
    Cause .DeadlineExceeded = .DeadlineExceeded ∧ Cause .Canceled = .Canceled
    ∧ newEvents world0
        ((SearcherWithTrace.mk (searcherFunc (none, some .DeadlineExceeded))).Search testCtx
          Params.zero world0).2
      = [.StartSpan "search.service",
         .AddAttributes "search.service" [("term", ""), ("locale", ""), ("types", "[]")],
         .Search testCtx Params.zero,
         .SetStatus "search.service" StatusCodeUnknown "context deadline exceeded",
         .End "search.service"]
    ∧ newEvents world0
        ((RepositoryWithTrace.mk (MockRepository (some .Canceled)
          (none, some .Canceled)).lift).Retrieve testCtx Params.zero world0).2
      = [.StartSpan "repository.retrieve", .Retrieve testCtx Params.zero,
         .SetStatus "repository.retrieve" StatusCodeUnknown "context canceled",
         .End "repository.retrieve"]
    ∧ newEvents world0
        ((RepositoryWithTrace.mk (MockRepository (some .Canceled)
          (none, some .Canceled)).lift).Cache testCtx Params.zero none world0).2
      = [.StartSpan "repository.cache", .Cache testCtx Params.zero none,
         .SetStatus "repository.cache" StatusCodeUnknown "context canceled",
         .End "repository.cache"] := by
  refine ⟨rfl, rfl, ?_, ?_, ?_⟩ <;> decide

theorem RequesterWithTrace_deferred_trace {σ : Type} (e : Err) (w : World σ) :
    (RequesterWithTrace.deferred (some e) w).trace
      = w.trace ++ (if Cause e = .Canceled ∨ Cause e = .DeadlineExceeded then []
          else [.SetStatus "requester.request" StatusCodeUnknown e.Error])
        ++ [.End "requester.request"] := by
  simp only [RequesterWithTrace.deferred]
  cases hc : Cause e <;> simp [World.emit]

theorem SearcherWithTrace_deferred_trace {σ : Type} (e : Err) (w : World σ) :
    (SearcherWithTrace.deferred (some e) w).trace
      = w.trace ++ (if Cause e ≠ .ErrUnavailable then
          [.SetStatus "search.service" StatusCodeUnknown e.Error, .End "search.service"]
        else [.SetStatus "search.service" StatusCodeOK "search successed",
          .End "search.service"]) := by
  simp only [SearcherWithTrace.deferred]
  split <;> simp [World.emit]

/-- C19, amended. `RequesterWithTrace.Request`: when the wrapped call returns an error
whose root cause is `context.Canceled` or `context.DeadlineExceeded`, the decorator only
ends its span, without setting a status; for any other error it sets `StatusCodeUnknown`
with the error's message, and for a nil error `StatusCodeOK`.  `SearcherWithTrace.Search`:
the span gets `StatusCodeUnknown` for every error whose root cause is not
`search.ErrUnavailable`, those caused by cancellation or the deadline included, and
`StatusCodeOK` for `search.ErrUnavailable` and for a nil error.
`RepositoryWithTrace.Cache` and `RepositoryWithTrace.Retrieve`: the span gets
`StatusCodeUnknown` for every non-nil error, those caused by cancellation or the deadline
included, and `StatusCodeOK` for a nil error. -/
theorem trace_status_by_decorator {σ : Type} :
    (∀ (base : Requester (World σ)) (ctx : Context) (p : Params) (w : World σ) (e : Err),
      (base.Request ctx p ((w.emit (.StartSpan "requester.request")).emit
        (.Request ctx p))).1.2 = some e →
      (Cause e = .Canceled ∨ Cause e = .DeadlineExceeded →
        ((RequesterWithTrace.mk base).Request ctx p w).2.trace
          = (base.Request ctx p ((w.emit (.StartSpan "requester.request")).emit
              (.Request ctx p))).2.trace ++ [.End "requester.request"])
      ∧ (Cause e ≠ .Canceled → Cause e ≠ .DeadlineExceeded →
        ((RequesterWithTrace.mk base).Request ctx p w).2.trace
          = (base.Request ctx p ((w.emit (.StartSpan "requester.request")).emit
              (.Request ctx p))).2.trace
            ++ [.SetStatus "requester.request" StatusCodeUnknown e.Error,
                .End "requester.request"]))
    ∧ (∀ (base : Requester (World σ)) (ctx : Context) (p : Params) (w : World σ),
      (base.Request ctx p ((w.emit (.StartSpan "requester.request")).emit
        (.Request ctx p))).1.2 = none →
      ((RequesterWithTrace.mk base).Request ctx p w).2.trace
        = (base.Request ctx p ((w.emit (.StartSpan "requester.request")).emit
            (.Request ctx p))).2.trace
          ++ [.SetStatus "requester.request" StatusCodeOK "request successed",
              .End "requester.request"])
    ∧ (∀ (base : Searcher σ) (ctx : Context) (p : Params) (w : World σ) (e : Err),
      (base.callSearch ctx p ((w.emit (.StartSpan "search.service")).emit
        (.AddAttributes "search.service" [("term", p.Term), ("locale", p.Locale),
          ("types", "[" ++ " ".intercalate p.Types.elems ++ "]")]))).1.2 = some e →
      (Cause e ≠ .ErrUnavailable →
        ((SearcherWithTrace.mk base).Search ctx p w).2.trace
          = (base.callSearch ctx p ((w.emit (.StartSpan "search.service")).emit
              (.AddAttributes "search.service" [("term", p.Term), ("locale", p.Locale),
                ("types", "[" ++ " ".intercalate p.Types.elems ++ "]")]))).2.trace
            ++ [.SetStatus "search.service" StatusCodeUnknown e.Error,
                .End "search.service"])
      ∧ (Cause e = .ErrUnavailable →
        ((SearcherWithTrace.mk base).Search ctx p w).2.trace
          = (base.callSearch ctx p ((w.emit (.StartSpan "search.service")).emit
              (.AddAttributes "search.service" [("term", p.Term), ("locale", p.Locale),
                ("types", "[" ++ " ".intercalate p.Types.elems ++ "]")]))).2.trace
            ++ [.SetStatus "search.service" StatusCodeOK "search successed",
                .End "search.service"]))
    ∧ (∀ (base : Searcher σ) (ctx : Context) (p : Params) (w : World σ),
      (base.callSearch ctx p ((w.emit (.StartSpan "search.service")).emit
        (.AddAttributes "search.service" [("term", p.Term), ("locale", p.Locale),
          ("types", "[" ++ " ".intercalate p.Types.elems ++ "]")]))).1.2 = none →
      ((SearcherWithTrace.mk base).Search ctx p w).2.trace
        = (base.callSearch ctx p ((w.emit (.StartSpan "search.service")).emit
            (.AddAttributes "search.service" [("term", p.Term), ("locale", p.Locale),
              ("types", "[" ++ " ".intercalate p.Types.elems ++ "]")]))).2.trace
          ++ [.SetStatus "search.service" StatusCodeOK "search successed",
              .End "search.service"])
    ∧ (∀ (base : Repository (World σ)) (ctx : Context) (p : Params) (places : Slice Model)
        (w : World σ),
      (∀ e : Err,
        (base.Cache ctx p places ((w.emit (.StartSpan "repository.cache")).emit
          (.Cache ctx p places))).1 = some e →
        ((RepositoryWithTrace.mk base).Cache ctx p places w).2.trace
          = (base.Cache ctx p places ((w.emit (.StartSpan "repository.cache")).emit
              (.Cache ctx p places))).2.trace
            ++ [.SetStatus "repository.cache" StatusCodeUnknown e.Error,
                .End "repository.cache"])
      ∧ ((base.Cache ctx p places ((w.emit (.StartSpan "repository.cache")).emit
          (.Cache ctx p places))).1 = none →
        ((RepositoryWithTrace.mk base).Cache ctx p places w).2.trace
          = (base.Cache ctx p places ((w.emit (.StartSpan "repository.cache")).emit
              (.Cache ctx p places))).2.trace
            ++ [.SetStatus "repository.cache" StatusCodeOK "cache successed",
                .End "repository.cache"]))
    ∧ (∀ (base : Repository (World σ)) (ctx : Context) (p : Params) (w : World σ),
      (∀ e : Err,
        (base.Retrieve ctx p ((w.emit (.StartSpan "repository.retrieve")).emit
          (.Retrieve ctx p))).1.2 = some e →
        ((RepositoryWithTrace.mk base).Retrieve ctx p w).2.trace
          = (base.Retrieve ctx p ((w.emit (.StartSpan "repository.retrieve")).emit
              (.Retrieve ctx p))).2.trace
            ++ [.SetStatus "repository.retrieve" StatusCodeUnknown e.Error,
                .End "repository.retrieve"])
      ∧ ((base.Retrieve ctx p ((w.emit (.StartSpan "repository.retrieve")).emit
          (.Retrieve ctx p))).1.2 = none →
        ((RepositoryWithTrace.mk base).Retrieve ctx p w).2.trace
          = (base.Retrieve ctx p ((w.emit (.StartSpan "repository.retrieve")).emit
              (.Retrieve ctx p))).2.trace
            ++ [.SetStatus "repository.retrieve" StatusCodeOK "retrieve successed",
                .End "repository.retrieve"])) := by
  refine ⟨?_, ?_, ?_, ?_, ?_, ?_⟩
  rotate_left 3
  · intro base ctx p w he
    have hd : ((SearcherWithTrace.mk base).Search ctx p w).2
        = SearcherWithTrace.deferred none
            (base.callSearch ctx p ((w.emit (.StartSpan "search.service")).emit
              (.AddAttributes "search.service" [("term", p.Term), ("locale", p.Locale),
                ("types", "[" ++ " ".intercalate p.Types.elems ++ "]")]))).2 := by
      simp only [SearcherWithTrace.Search, he]
    rw [hd]
    simp [SearcherWithTrace.deferred, World.emit]
  · intro base ctx p places w
    refine ⟨?_, ?_⟩
    · intro e he
      have hd : ((RepositoryWithTrace.mk base).Cache ctx p places w).2
          = RepositoryWithTrace.deferred "repository.cache" "cache successed" (some e)
              (base.Cache ctx p places ((w.emit (.StartSpan "repository.cache")).emit
                (.Cache ctx p places))).2 := by
        simp only [RepositoryWithTrace.Cache, he]
      rw [hd]
      simp [RepositoryWithTrace.deferred, World.emit]
    · intro he
      have hd : ((RepositoryWithTrace.mk base).Cache ctx p places w).2
          = RepositoryWithTrace.deferred "repository.cache" "cache successed" none
              (base.Cache ctx p places ((w.emit (.StartSpan "repository.cache")).emit
                (.Cache ctx p places))).2 := by
        simp only [RepositoryWithTrace.Cache, he]
      rw [hd]
      simp [RepositoryWithTrace.deferred, World.emit]
  · intro base ctx p w
    refine ⟨?_, ?_⟩
    · intro e he
      have hd : ((RepositoryWithTrace.mk base).Retrieve ctx p w).2
          = RepositoryWithTrace.deferred "repository.retrieve" "retrieve successed" (some e)
              (base.Retrieve ctx p ((w.emit (.StartSpan "repository.retrieve")).emit
                (.Retrieve ctx p))).2 := by
        simp only [RepositoryWithTrace.Retrieve, he]
      rw [hd]
      simp [RepositoryWithTrace.deferred, World.emit]
    · intro he
      have hd : ((RepositoryWithTrace.mk base).Retrieve ctx p w).2
          = RepositoryWithTrace.deferred "repository.retrieve" "retrieve successed" none
              (base.Retrieve ctx p ((w.emit (.StartSpan "repository.retrieve")).emit
                (.Retrieve ctx p))).2 := by
        simp only [RepositoryWithTrace.Retrieve, he]
      rw [hd]
      simp [RepositoryWithTrace.deferred, World.emit]
  · intro base ctx p w e he
    have hd : ((RequesterWithTrace.mk base).Request ctx p w).2
        = RequesterWithTrace.deferred (some e)
            (base.Request ctx p ((w.emit (.StartSpan "requester.request")).emit
              (.Request ctx p))).2 := by
      simp only [RequesterWithTrace.Request, he]
    rw [hd, RequesterWithTrace_deferred_trace]
    refine ⟨?_, ?_⟩
    · intro hc
      simp [hc]
    · intro h1 h2
      simp [h1, h2]
  · intro base ctx p w he
    have hd : ((RequesterWithTrace.mk base).Request ctx p w).2
        = RequesterWithTrace.deferred none
            (base.Request ctx p ((w.emit (.StartSpan "requester.request")).emit
              (.Request ctx p))).2 := by
      simp only [RequesterWithTrace.Request, he]
    rw [hd]
    simp [RequesterWithTrace.deferred, World.emit]
  · intro base ctx p w e he
    have hd : ((SearcherWithTrace.mk base).Search ctx p w).2
        = SearcherWithTrace.deferred (some e)
            (base.callSearch ctx p ((w.emit (.StartSpan "search.service")).emit
              (.AddAttributes "search.service" [("term", p.Term), ("locale", p.Locale),
                ("types", "[" ++ " ".intercalate p.Types.elems ++ "]")]))).2 := by
      simp only [SearcherWithTrace.Search, he]
    rw [hd, SearcherWithTrace_deferred_trace]
    refine ⟨?_, ?_⟩
    · intro hc
      simp [hc]
    · intro hc
      simp [hc]

/-! ## The response body -/

theorem hexValue_hexLower : ∀ k < 16, hexValue (hexLower k) = some k := by
  decide

theorem hexValue_hexLower_mod (n : Nat) : hexValue (hexLower n) = some (n % 16) := by
  have h := hexValue_hexLower (n % 16) (Nat.mod_lt _ (by omega))
  simpa [hexLower] using h

theorem char_eq_of_toNat (c : Char) (n : Nat) (h : c.toNat = n) : c = Char.ofNat n := by
  rw [← h, Char.ofNat_toNat]

/-- Reading a `\uXXXX` escape. -/
theorem jsonUnescape_u (a b c d : Char) (x y z u : Nat) (rest : List Char)
    (ha : hexValue a = some x) (hb : hexValue b = some y) (hc : hexValue c = some z)
    (hd : hexValue d = some u) :
    jsonUnescape (Char.ofNat 0x5C :: Char.ofNat 0x75 :: a :: b :: c :: d :: rest)
      = (jsonUnescape rest).map (Char.ofNat (((x * 16 + y) * 16 + z) * 16 + u) :: ·) := by
  rw [jsonUnescape.eq_def]
  simp [ha, hb, hc, hd]

/-- Reading a two-character escape. -/
theorem jsonUnescape_short (rest : List Char) :
    jsonUnescape (Char.ofNat 0x5C :: Char.ofNat 0x22 :: rest)
      = (jsonUnescape rest).map (Char.ofNat 0x22 :: ·)
    ∧ jsonUnescape (Char.ofNat 0x5C :: Char.ofNat 0x5C :: rest)
      = (jsonUnescape rest).map (Char.ofNat 0x5C :: ·)
    ∧ jsonUnescape (Char.ofNat 0x5C :: Char.ofNat 0x6E :: rest)
      = (jsonUnescape rest).map (Char.ofNat 0x0A :: ·)
    ∧ jsonUnescape (Char.ofNat 0x5C :: Char.ofNat 0x72 :: rest)
      = (jsonUnescape rest).map (Char.ofNat 0x0D :: ·)
    ∧ jsonUnescape (Char.ofNat 0x5C :: Char.ofNat 0x74 :: rest)
      = (jsonUnescape rest).map (Char.ofNat 0x09 :: ·)
    ∧ jsonUnescape (Char.ofNat 0x5C :: Char.ofNat 0x62 :: rest)
      = (jsonUnescape rest).map (Char.ofNat 0x08 :: ·)
    ∧ jsonUnescape (Char.ofNat 0x5C :: Char.ofNat 0x66 :: rest)
      = (jsonUnescape rest).map (Char.ofNat 0x0C :: ·) := by
  refine ⟨?_, ?_, ?_, ?_, ?_, ?_, ?_⟩ <;> (rw [jsonUnescape.eq_def]; simp)

/-- Reading a character that is neither a backslash nor a quote. -/
theorem jsonUnescape_plain (c : Char) (rest : List Char) (h1 : c.toNat ≠ 0x5C)
    (h2 : c.toNat ≠ 0x22) :
    jsonUnescape (c :: rest) = (jsonUnescape rest).map (c :: ·) := by
  rw [jsonUnescape.eq_def]
  simp [h1, h2]

/-- What `encoding/json` writes for a character reads back as that character. -/
theorem jsonUnescape_escape (c : Char) (rest : List Char) :
    jsonUnescape ((jsonEscapeChar c).data ++ rest) = (jsonUnescape rest).map (c :: ·) := by
  have hlt := char_toNat_lt c
  unfold jsonEscapeChar
  simp only
  split_ifs with h1 h2 hb hf h3 h4 h5 h6 h7
  · rw [char_eq_of_toNat c _ h1]; exact (jsonUnescape_short rest).1
  · rw [char_eq_of_toNat c _ h2]; exact (jsonUnescape_short rest).2.1
  · rw [char_eq_of_toNat c _ hb]; exact (jsonUnescape_short rest).2.2.2.2.2.1
  · rw [char_eq_of_toNat c _ hf]; exact (jsonUnescape_short rest).2.2.2.2.2.2
  · rw [char_eq_of_toNat c _ h3]; exact (jsonUnescape_short rest).2.2.1
  · rw [char_eq_of_toNat c _ h4]; exact (jsonUnescape_short rest).2.2.2.1
  · rw [char_eq_of_toNat c _ h5]; exact (jsonUnescape_short rest).2.2.2.2.1
  · have hv : ((0 * 16 + 0) * 16 + c.toNat / 16 % 16) * 16 + c.toNat % 16 = c.toNat := by
      omega
    have := jsonUnescape_u (Char.ofNat 0x30) (Char.ofNat 0x30) (hexLower (c.toNat / 16))
      (hexLower c.toNat) 0 0 (c.toNat / 16 % 16) (c.toNat % 16) rest (by decide) (by decide)
      (hexValue_hexLower_mod _) (hexValue_hexLower_mod _)
    rw [hv, Char.ofNat_toNat] at this
    simpa [String.data_append] using this
  · have hv : ((2 * 16 + 0) * 16 + 2) * 16 + c.toNat % 16 = c.toNat := by
      omega
    have := jsonUnescape_u (Char.ofNat 0x32) (Char.ofNat 0x30) (Char.ofNat 0x32)
      (hexLower c.toNat) 2 0 2 (c.toNat % 16) rest (by decide) (by decide) (by decide)
      (hexValue_hexLower_mod _)
    rw [hv, Char.ofNat_toNat] at this
    simpa [String.data_append] using this
  · exact jsonUnescape_plain c rest h2 h1

theorem join_map_data {α : Type} (f : α → String) (l : List α) :
    (String.join (l.map f)).data = l.flatMap fun a => (f a).data := by
  induction l with
  | nil => rfl
  | cons a l ih => rw [List.map_cons, join_cons, String.data_append, ih, List.flatMap_cons]

/-- The escaped characters of a text, followed by the closing quote, read back as the
text. -/
theorem jsonUnescape_escaped (l : List Char) :
    jsonUnescape (l.flatMap fun c => (jsonEscapeChar c).data) = some l := by
  induction l with
  | nil => rw [List.flatMap_nil, jsonUnescape.eq_def]
  | cons c l ih => rw [List.flatMap_cons, jsonUnescape_escape, ih]; rfl

/-- A JSON parser reads the text back from the string literal `encoding/json` writes. -/
theorem jsonUnquote_jsonString (s : String) : jsonUnquote (jsonString s) = some s := by
  have hd : (jsonString s).data = Char.ofNat 0x22 ::
      ((s.data.flatMap fun c => (jsonEscapeChar c).data) ++ [Char.ofNat 0x22]) := by
    simp only [jsonString, String.data_append, join_map_data, List.append_assoc]
    rfl
  simp [jsonUnquote, hd, jsonUnescape_escaped]

/-- C15 (the code does otherwise). The same answer, the empty list, gets two bodies: when
the upstream answers with an empty list `Handle` writes 200 and the JSON array `[]`, and
the goroutine caches that list; when the upstream then fails, `Retrieve` decodes the
cached list into a nil slice, `Search` returns `(nil, nil)`, and `Handle` writes 200 and
`null`, which is not a JSON array.  The body is `null` as well after a cancellation,
when the service returns `(nil, nil)`. -/
theorem handle_body_null_for_cached_empty_list :
    (emptyAnswerService.toSearcher.callSearch getRequest.ctx (setParams Params.zero [])
        emptyStore).1 = (some [], none)
    ∧ (searchHandler.Handle emptyAnswerService.toSearcher NewRecorder getRequest
        emptyStore).1.1.Code = some 200
    ∧ (searchHandler.Handle emptyAnswerService.toSearcher NewRecorder getRequest
        emptyStore).1.1.Body = "[]\n"
    ∧ (emptyAnswerService.runGoroutines
        (searchHandler.Handle emptyAnswerService.toSearcher NewRecorder getRequest
          emptyStore).2.trace
        (searchHandler.Handle emptyAnswerService.toSearcher NewRecorder getRequest
          emptyStore).2).state = [(Redis.paramsToHex Params.zero, [])]
    ∧ (upstreamDownService.toSearcher.callSearch getRequest.ctx (setParams Params.zero [])
        { state := [(Redis.paramsToHex Params.zero, [])], trace := [] }).1 = (none, none)
    ∧ (searchHandler.Handle upstreamDownService.toSearcher NewRecorder getRequest
        { state := [(Redis.paramsToHex Params.zero, [])], trace := [] }).1.1.Code = some 200
    ∧ (searchHandler.Handle upstreamDownService.toSearcher NewRecorder getRequest
        { state := [(Redis.paramsToHex Params.zero, [])], trace := [] }).1.1.Body = "null\n"
    ∧ (searchHandler.Handle cancelledService.toSearcher NewRecorder getRequest world0).1.1.Body
        = "null\n" := by
  refine ⟨?_, ?_, ?_, ?_, ?_, ?_, ?_, ?_⟩ <;> decide

/-- The body for a non-nil list: on a GET request whose form parses, handled with a writer that has no
header yet and whose writes succeed, if the Searcher returns `(v, nil)` with `v` a
non-nil list `l` (the empty one included), `Handle` writes status 200 and appends to the
body the JSON array of the records of `l` in order, separated by commas, and a newline;
each record is the object with exactly the keys `slug`, `subtitle`, `title`, in this
order, whose values are the JSON string literals of the record's Slug, SubTitle and
Title; a JSON parser reads each literal back as the very text; the empty list gives
`[]`. -/
theorem handle_body_json_array {σ : Type} (h : Searcher σ) (w : ResponseWriter)
    (r : HttpRequest) (world world1 : World σ) (form : Values) (l : List Model)
    (hm : r.Method = "GET") (hf : r.ParseForm = .ok form) (hw : w.Code = none)
    (hwe : w.writeError = none)
    (hs : h.callSearch r.ctx (setParams Params.zero form) world = ((some l, none), world1)) :
    (searchHandler.Handle h w r world).1.1.Body
        = w.Body ++ ("[" ++ ",".intercalate (l.map jsonModel) ++ "]" ++ "\n")
    ∧ (searchHandler.Handle h w r world).1.1.Code = some 200
    ∧ (searchHandler.Handle h w r world).1.2 = none
    ∧ (∀ m : Model, jsonModel m
        = "\x7b\"slug\":" ++ jsonString m.Slug ++ ",\"subtitle\":" ++ jsonString m.SubTitle
          ++ ",\"title\":" ++ jsonString m.Title ++ "\x7d")
    ∧ (∀ m : Model, jsonUnquote (jsonString m.Slug) = some m.Slug
        ∧ jsonUnquote (jsonString m.SubTitle) = some m.SubTitle
        ∧ jsonUnquote (jsonString m.Title) = some m.Title)
    ∧ (l = [] → (searchHandler.Handle h w r world).1.1.Body = w.Body ++ "[]\n") := by
  have hh : (searchHandler.Handle h w r world).1
      = ({ w with Code := some 200,
                  Body := w.Body ++ ("[" ++ ",".intercalate (l.map jsonModel) ++ "]" ++ "\n") },
         none) := by
    simp [searchHandler.Handle, hm, hf, hs, jsonEncode, ResponseWriter.Write,
      ResponseWriter.WriteHeader, hw, hwe, jsonPlaces]
  rw [hh]
  refine ⟨rfl, rfl, rfl, fun _ => rfl,
    fun m => ⟨jsonUnquote_jsonString _, jsonUnquote_jsonString _, jsonUnquote_jsonString _⟩, ?_⟩
  intro hl
  subst hl
  rfl

end Places
